import Mathlib

/-
  Verification of the CodeMind memory-injection core.

  The definitions below are a shallow embedding of the TypeScript sources:
  * `src/memoryInjector.ts`   (relevance scoring, selection, compression, formatting)
  * `src/codePatternRecognizer.ts` (normalisation, Levenshtein similarity, inconsistency check)
  * `src/codeValidator.ts` and `src/architectureChecker.ts` (constraint validation pipeline)

  Strings are modelled as `String`/`List Char`; JavaScript numbers are modelled as `ℚ`
  (all arithmetic performed by the embedded code stays well inside the range where
  IEEE doubles are exact, and all comparisons have denominators far below the scale
  where rounding could flip them).  JavaScript's stable `Array.prototype.sort` is
  modelled by `List.insertionSort`, which is stable for a total preorder and hence
  produces the same list as any stable sort with the same comparator.
-/

namespace CodeMind

/- Core Lean marks the arithmetic on `Rat` `@[irreducible]`; re-allow unfolding
so that concrete instances of the definitions below can be settled by `decide`. -/
attribute [local semireducible] Rat.add Rat.mul Rat.sub Rat.ofScientific Rat.inv

/-- JS `Math.ceil` on the (always nonnegative) rationals used here, as the
executable `-⌊-q⌋`. -/
def jsCeil (q : ℚ) : ℤ := -Rat.floor (-q)

/-! ## Basic character and string helpers (JS string primitives) -/

/-- Whitespace characters, modelling the JavaScript regex class \s on the
character repertoire this extension manipulates. -/
def isWsChar (c : Char) : Bool :=
  c == ' ' || c == '\t' || c == '\n' || c == '\r' || c == '\x0b' || c == '\x0c'

/-- JS regex word character \w, i.e. [A-Za-z0-9_]. -/
def wordChar (c : Char) : Bool :=
  ('a' ≤ c && c ≤ 'z') || ('A' ≤ c && c ≤ 'Z') || ('0' ≤ c && c ≤ '9') || c == '_'

/-- An ASCII letter, as tested by the JS regex [a-zA-Z]. -/
def asciiLetter (c : Char) : Bool :=
  ('a' ≤ c && c ≤ 'z') || ('A' ≤ c && c ≤ 'Z')

/-- A CJK character in the range [一-龥] used by `estimateTokens`. -/
def isCjk (c : Char) : Bool :=
  '一' ≤ c && c ≤ '龥'

/-- `startsWith hay pat`: `pat` is a prefix of `hay`. -/
def startsWith : List Char → List Char → Bool
  | _, [] => true
  | [], _ :: _ => false
  | c :: cs, d :: ds => c == d && startsWith cs ds

/-- `hasSub hay pat`: JS `hay.includes(pat)` (literal substring search). -/
def hasSub : List Char → List Char → Bool
  | [], pat => pat.isEmpty
  | c :: t, pat => startsWith (c :: t) pat || hasSub t pat

/-- JS `s.includes(sub)`. -/
def strIncludes (s sub : String) : Bool := hasSub s.data sub.data

/-- JS `s.toLowerCase()` (ASCII; CJK characters are case-invariant). -/
def lowerStr (s : String) : String := String.mk (s.data.map Char.toLower)

/-- JS `s.trim()`. -/
def trimChars (cs : List Char) : List Char :=
  ((cs.dropWhile isWsChar).reverse.dropWhile isWsChar).reverse

/-- Replace every maximal whitespace run by a single space: JS `replace(/\s+/g, ' ')`. -/
def collapseWsAux : List Char → Bool → List Char
  | [], _ => []
  | c :: t, inWs =>
    if isWsChar c then
      if inWs then collapseWsAux t true else ' ' :: collapseWsAux t true
    else c :: collapseWsAux t false

def collapseWs (cs : List Char) : List Char := collapseWsAux cs false

/-- JS `s.split(/[d...]/)` for a single-character class without `+`:
every delimiter occurrence splits, consecutive delimiters yield empty segments. -/
def splitOnChars (delims : List Char) : List Char → List (List Char)
  | [] => [[]]
  | c :: t =>
    if delims.contains c then [] :: splitOnChars delims t
    else
      match splitOnChars delims t with
      | [] => [[c]]
      | s :: rest => (c :: s) :: rest

mutual

/-- Part of `splitRuns`: currently inside a segment (accumulated in `acc`, reversed). -/
def splitRunsSeg (isD : Char → Bool) : List Char → List Char → List (List Char)
  | [], acc => [acc.reverse]
  | c :: t, acc =>
    if isD c then acc.reverse :: splitRunsGap isD t
    else splitRunsSeg isD t (c :: acc)

/-- Part of `splitRuns`: currently inside a delimiter run. -/
def splitRunsGap (isD : Char → Bool) : List Char → List (List Char)
  | [] => [[]]
  | c :: t => if isD c then splitRunsGap isD t else splitRunsSeg isD t [c]

end

/-- JS `s.split(/[d...]+/)`: maximal delimiter runs split; a leading or trailing
run contributes one empty segment. -/
def splitRuns (isD : Char → Bool) (cs : List Char) : List (List Char) :=
  splitRunsSeg isD cs []

/-! ## Data model (`memoryStorage.ts`) -/

inductive ImportanceLevel where
  | critical
  | high
  | medium
  | low
deriving DecidableEq, Repr

inductive MemoryCategory where
  | architecture
  | codeStyle
  | businessRule
  | apiSpec
  | database
  | config
  | constraint
  | documentation
  | other
deriving DecidableEq, Repr

structure Memory where
  id : String
  content : String
  category : MemoryCategory
  timestamp : Nat
  tags : List String
  importance : ImportanceLevel
  relatedFiles : Option (List String)
  confidence : Option ℚ
deriving DecidableEq, Repr

/-! ## `memoryInjector.ts`: token estimation and compression -/

/-- Number of characters in the CJK range, `(text.match(/[一-龥]/g) || []).length`. -/
def cjkCount (text : String) : Nat := (text.data.filter isCjk).length

/-- `text.split(/\s+/).filter(w => /[a-zA-Z]/.test(w)).length`. -/
def englishWordCount (text : String) : Nat :=
  ((splitRuns isWsChar text.data).filter (fun w => w.any asciiLetter)).length

/-- `MemoryInjector.estimateTokens`: `Math.ceil(chineseChars * 1.5 + englishWords)`. -/
def estimateTokens (text : String) : Nat :=
  (jsCeil ((cjkCount text : ℚ) * 1.5 + (englishWordCount text : ℚ))).toNat

/-- The filler words stripped under aggressive compression. -/
def redundantWords : List String := ["的", "了", "和", "或", "以及", "还有"]

/-- Fuel-indexed scanner for `removeAllSub`; the fuel (initialised to the input
length) only bounds the recursion depth — every step consumes at least one
character, so it never runs out.  Structural recursion on the fuel keeps the
function computable by the kernel. -/
def removeAllSubF : Nat → List Char → List Char → List Char
  | 0, _, cs => cs
  | _ + 1, _, [] => []
  | fuel + 1, word, c :: t =>
    if word ≠ [] ∧ startsWith (c :: t) word then
      removeAllSubF fuel word ((c :: t).drop word.length)
    else c :: removeAllSubF fuel word t

/-- JS `s.replace(new RegExp(word, 'g'), '')` for a literal nonempty `word`. -/
def removeAllSub (word cs : List Char) : List Char := removeAllSubF cs.length word cs

/-- `MemoryInjector.compressContent`. -/
def compressContent (content : String) (aggressive : Bool) : String :=
  let compressed := trimChars (collapseWs content.data)
  let compressed :=
    if aggressive then
      redundantWords.foldl (fun acc w => removeAllSub w.data acc) compressed
    else compressed
  let compressed :=
    if compressed.length > 200 ∧ aggressive then
      compressed.take 100 ++ ['.', '.', '.'] ++ compressed.drop (compressed.length - 100)
    else if compressed.length > 300 then
      compressed.take 300 ++ ['.', '.', '.']
    else compressed
  String.mk compressed

/-- Sort key of `compressMemories`' importance comparator. -/
def importanceOrder : ImportanceLevel → Nat
  | .critical => 0
  | .high => 1
  | .medium => 2
  | .low => 3

/-- The comparator `(a, b) => importanceOrder[a.importance] - importanceOrder[b.importance]`
as a preorder.  `Array.prototype.sort` is stable, so it is modelled by the stable
`List.insertionSort`. -/
def impLe (a b : Memory) : Prop :=
  importanceOrder a.importance ≤ importanceOrder b.importance

instance : DecidableRel impLe := fun a b =>
  inferInstanceAs (Decidable (importanceOrder a.importance ≤ importanceOrder b.importance))

def sortByImportance (l : List Memory) : List Memory := l.insertionSort impLe

/-- The `for (const memory of sorted)` loop of `MemoryInjector.compressMemories`:
`tokenCount` is the running total, `kept` the number of records pushed so far
(= `compressed.length`).  On the first overflow the current record is force-pushed
in aggressively compressed form when it is critical and fewer than 20 records were
kept, and the loop `break`s in every overflow case. -/
def compressLoop (budget : Nat) : List Memory → Nat → Nat → List Memory
  | [], _, _ => []
  | m :: rest, tokenCount, kept =>
    let compressedContent := compressContent m.content false
    let contentTokens := estimateTokens compressedContent
    if tokenCount + contentTokens ≤ budget then
      { m with content := compressedContent } ::
        compressLoop budget rest (tokenCount + contentTokens) (kept + 1)
    else if m.importance = .critical ∧ kept < 20 then
      [{ m with content := compressContent m.content true }]
    else []

/-- `MemoryInjector.compressMemories`. -/
def compressMemories (memories : List Memory) (maxTokens : Nat) : List Memory :=
  compressLoop maxTokens (sortByImportance memories) 0 0

/-! ## `memoryInjector.ts`: relevance scoring and selection -/

structure CodeFeatures where
  filePath : String
  fileName : String
  fileDir : String
  language : String
  functions : List String
  classes : List String
  imports : List String
  keywords : List String
  content : String
deriving DecidableEq, Repr

/-- `MemoryInjector.calculateRelevance`. -/
def calculateRelevance (memory : Memory) (features : CodeFeatures) : ℚ :=
  let score : ℚ := 0
  let score := if memory.importance = .critical then score + 100 else score
  let score :=
    match memory.relatedFiles with
    | some rf =>
      if rf.length > 0 ∧
          rf.any (fun relatedFile =>
            strIncludes features.filePath relatedFile ||
            strIncludes relatedFile features.filePath) then
        score + 50
      else score
    | none => score
  let matchingTags := memory.tags.filter (fun tag =>
    let tagLower := lowerStr tag
    strIncludes (lowerStr features.fileName) tagLower ||
    strIncludes (lowerStr features.fileDir) tagLower ||
    features.functions.any (fun f => strIncludes (lowerStr f) tagLower) ||
    features.classes.any (fun c => strIncludes (lowerStr c) tagLower) ||
    features.keywords.any (fun k => strIncludes (lowerStr k) tagLower))
  let score := score + (matchingTags.length : ℚ) * 10
  let matchingFunctions := features.functions.filter (fun f =>
    let fLower := lowerStr f
    strIncludes (lowerStr memory.content) fLower ||
    memory.tags.any (fun t => strIncludes (lowerStr t) fLower))
  let score := score + (matchingFunctions.length : ℚ) * 5
  let matchingClasses := features.classes.filter (fun c =>
    let cLower := lowerStr c
    strIncludes (lowerStr memory.content) cLower ||
    memory.tags.any (fun t => strIncludes (lowerStr t) cLower))
  let score := score + (matchingClasses.length : ℚ) * 5
  let matchingImports := features.imports.filter (fun imp =>
    strIncludes (lowerStr memory.content) (lowerStr imp))
  let score := score + (matchingImports.length : ℚ) * 3
  let matchingKeywords := features.keywords.filter (fun k =>
    let kLower := lowerStr k
    strIncludes (lowerStr memory.content) kLower ||
    memory.tags.any (fun t => strIncludes (lowerStr t) kLower))
  let score := score + (matchingKeywords.length : ℚ) * 2
  let featuresText :=
    lowerStr (String.intercalate " " (features.functions ++ features.classes ++ features.keywords))
  let commonWords := (splitRuns isWsChar featuresText.data).filter (fun word =>
    word.length > 3 && hasSub (lowerStr memory.content).data word)
  let score := score + (commonWords.length : ℚ) * 1
  let score :=
    if memory.importance = .high then score * 1.5
    else if memory.importance = .medium then score * 1.2
    else score
  score

structure MemoryRelevance where
  memory : Memory
  score : ℚ
deriving DecidableEq

/-- The comparator `(a, b) => b.score - a.score` (descending by score) as a
preorder; the stable JS sort is modelled by `List.insertionSort`. -/
def relDesc (a b : MemoryRelevance) : Prop := b.score ≤ a.score

instance : DecidableRel relDesc := fun a b =>
  inferInstanceAs (Decidable (b.score ≤ a.score))

def sortByScoreDesc (l : List MemoryRelevance) : List MemoryRelevance :=
  l.insertionSort relDesc

instance : IsTotal MemoryRelevance relDesc := ⟨fun a b => le_total b.score a.score⟩

instance : IsTrans MemoryRelevance relDesc := ⟨fun _ _ _ hab hbc => le_trans hbc hab⟩

instance : IsTotal Memory impLe := ⟨fun a b => le_total _ _⟩

instance : IsTrans Memory impLe := ⟨fun _ _ _ hab hbc => le_trans hab hbc⟩

/-- JS `l.slice(0, e)` where `e` may be negative (a negative end counts from the
end of the array, clamped at 0). -/
def jsSliceTo {α : Type} (l : List α) (e : Int) : List α :=
  if 0 ≤ e then l.take e.toNat else l.take ((l.length : Int) + e).toNat

/-- `const memoryRelevances = memories.map(memory => ({memory, score: ...}))`. -/
def memoryRelevancesOf (memories : List Memory) (features : CodeFeatures) :
    List MemoryRelevance :=
  memories.map (fun memory => MemoryRelevance.mk memory (calculateRelevance memory features))

/-- `memoryRelevances.sort((a, b) => b.score - a.score)`. -/
def sortedRelevances (memories : List Memory) (features : CodeFeatures) :
    List MemoryRelevance :=
  sortByScoreDesc (memoryRelevancesOf memories features)

/-- `memoryRelevances.filter(mr => mr.memory.importance === CRITICAL)` (after sorting). -/
def criticalRelevances (memories : List Memory) (features : CodeFeatures) :
    List MemoryRelevance :=
  (sortedRelevances memories features).filter (fun mr =>
    decide (mr.memory.importance = .critical))

/-- `memoryRelevances.filter(mr => mr.memory.importance !== CRITICAL && mr.score > 10)`. -/
def otherRelevances (memories : List Memory) (features : CodeFeatures) :
    List MemoryRelevance :=
  (sortedRelevances memories features).filter (fun mr =>
    decide (mr.memory.importance ≠ .critical ∧ mr.score > 10))

/-- `MemoryInjector.getRelevantMemoriesForFile`, with the asynchronous corpus
load and feature extraction made explicit: `memories` is the stored corpus and
`features?` the extracted features (`none` when no file path was given). -/
def getRelevantMemoriesForFile (memories : List Memory) (features? : Option CodeFeatures) :
    List Memory :=
  match features? with
  | none =>
    memories.filter (fun m =>
      decide (m.importance = .critical ∨ m.importance = .high))
  | some features =>
    let relevantMemories := (criticalRelevances memories features).map (fun mr => mr.memory)
    let remaining : Int := 20 - (relevantMemories.length : Int)
    relevantMemories ++
      (jsSliceTo (otherRelevances memories features) remaining).map (fun mr => mr.memory)

/-! ## `memoryInjector.ts`: formatting of the context bundle -/

def criticalOf (compressed : List Memory) : List Memory :=
  compressed.filter (fun m => decide (m.importance = .critical))

def highOf (compressed : List Memory) : List Memory :=
  compressed.filter (fun m => decide (m.importance = .high))

def mediumOf (compressed : List Memory) : List Memory :=
  compressed.filter (fun m => decide (m.importance = .medium))

/-- Records whose content the [CRITICAL] section prints: `critical.slice(0, 10)`. -/
def critEmitted (compressed : List Memory) : List Memory :=
  (criticalOf compressed).take 10

/-- Records whose content the [HIGH] section prints:
`critical.length < 10` guards the section and it prints `high.slice(0, 10 - critical.length)`. -/
def highEmitted (compressed : List Memory) : List Memory :=
  if (criticalOf compressed).length < 10 then
    (highOf compressed).take (10 - (criticalOf compressed).length)
  else []

/-- Records whose content the [MEDIUM] section prints:
`critical.length + high.length < 10` guards the section and it prints
`medium.slice(0, 10 - critical.length - high.length)`. -/
def mediumEmitted (compressed : List Memory) : List Memory :=
  if (criticalOf compressed).length + (highOf compressed).length < 10 then
    (mediumOf compressed).take
      (10 - (criticalOf compressed).length - (highOf compressed).length)
  else []

def sepLine : String := "========================================\n"

def dashLine : String := "----------------------------------------\n"

def headerMarker : String := "CURSOR MEMORY CONTEXT - PROJECT RULES"

def footerMarker : String := "END OF MEMORY CONTEXT"

/-- `MemoryInjector.formatMemoriesAsContext`.  The three sections print exactly
the records given by `critEmitted` / `highEmitted` / `mediumEmitted`. -/
def formatMemoriesAsContext (memories : List Memory) (maxTokens : Nat) : String :=
  if memories.length = 0 then ""
  else
    let compressedMemories := compressMemories memories maxTokens
    let critical := criticalOf compressedMemories
    let high := highOf compressedMemories
    let medium := mediumOf compressedMemories
    let context := "\n\n" ++ sepLine ++ headerMarker ++ "\n" ++ sepLine ++
      "These are the project memories and rules that MUST be followed.\n" ++
      "DO NOT modify or ignore these rules.\n" ++ sepLine ++ "\n"
    let context :=
      if critical.length > 0 then
        context ++ "[CRITICAL] MUST FOLLOW - DO NOT VIOLATE:\n" ++ dashLine ++
          String.join ((critEmitted compressedMemories).map
            (fun memory => "✓ " ++ memory.content ++ "\n")) ++ "\n"
      else context
    let context :=
      if high.length > 0 ∧ critical.length < 10 then
        context ++ "[HIGH] STRONGLY RECOMMENDED:\n" ++ dashLine ++
          String.join ((highEmitted compressedMemories).map
            (fun memory => "• " ++ memory.content ++ "\n")) ++ "\n"
      else context
    let context :=
      if medium.length > 0 ∧ critical.length + high.length < 10 then
        context ++ "[MEDIUM] RECOMMENDED:\n" ++ dashLine ++
          String.join ((mediumEmitted compressedMemories).map
            (fun memory => "- " ++ memory.content ++ "\n")) ++ "\n"
      else context
    context ++ sepLine ++ footerMarker ++ "\n" ++ sepLine ++ "\n"

/-! ## `codePatternRecognizer.ts`: normalisation and similarity -/

/-- Skip to the end of the current line (keeping the newline). -/
def dropToLineEnd : List Char → List Char
  | [] => []
  | c :: t => if c == '\n' then c :: t else dropToLineEnd t

/-- Fuel-indexed scanner (see `removeAllSubF` for the fuel convention). -/
def stripLineCommentsF : Nat → List Char → List Char
  | 0, cs => cs
  | _ + 1, [] => []
  | _ + 1, [c] => [c]
  | fuel + 1, c :: d :: r =>
    if c == '/' && d == '/' then stripLineCommentsF fuel (dropToLineEnd r)
    else c :: stripLineCommentsF fuel (d :: r)

/-- Remove `//` line comments: JS `replace(/\/\/.*$/gm, '')`. -/
def stripLineComments (cs : List Char) : List Char := stripLineCommentsF cs.length cs

/-- Skip past the first `*/`, returning the remainder (or `none`). -/
def dropBlockClose : List Char → Option (List Char)
  | [] => none
  | [_] => none
  | c :: d :: r => if c == '*' && d == '/' then some r else dropBlockClose (d :: r)

/-- Fuel-indexed scanner (see `removeAllSubF` for the fuel convention). -/
def stripBlockCommentsF : Nat → List Char → List Char
  | 0, cs => cs
  | _ + 1, [] => []
  | _ + 1, [c] => [c]
  | fuel + 1, c :: d :: r =>
    if c == '/' && d == '*' then
      match dropBlockClose r with
      | some rest => stripBlockCommentsF fuel rest
      | none => c :: stripBlockCommentsF fuel (d :: r)
    else c :: stripBlockCommentsF fuel (d :: r)

/-- Remove block comments (lazy): JS `replace(/\/\*[\s\S]*?\*\//g, '')`. -/
def stripBlockComments (cs : List Char) : List Char := stripBlockCommentsF cs.length cs

/-- Fuel-indexed scanner (see `removeAllSubF` for the fuel convention). -/
def replaceStrLitsF : Nat → List Char → List Char
  | 0, cs => cs
  | _ + 1, [] => []
  | fuel + 1, c :: t =>
    if c == '"' || c == '\'' then
      let run := t.takeWhile (fun d => !(d == '"' || d == '\''))
      match t.drop run.length with
      | _ :: r => '"' :: '"' :: replaceStrLitsF fuel r
      | [] => c :: replaceStrLitsF fuel t
    else c :: replaceStrLitsF fuel t

/-- Replace string literals by `""`: JS `replace(/["'][^"']*["']/g, '""')`. -/
def replaceStrLits (cs : List Char) : List Char := replaceStrLitsF cs.length cs

/-- Fuel-indexed scanner (see `removeAllSubF` for the fuel convention). -/
def replaceNumsF : Nat → Bool → List Char → List Char
  | 0, _, cs => cs
  | _ + 1, _, [] => []
  | fuel + 1, prevWord, c :: t =>
    if c.isDigit && !prevWord then
      let run := t.takeWhile Char.isDigit
      match t.drop run.length with
      | d :: r =>
        if wordChar d then c :: replaceNumsF fuel true t
        else '0' :: replaceNumsF fuel true (d :: r)
      | [] => ['0']
    else c :: replaceNumsF fuel (wordChar c) t

/-- Replace whole-word digit runs by `0`: JS `replace(/\b\d+\b/g, '0')`;
`prevWord` records whether the previous character was a word character. -/
def replaceNums (prevWord : Bool) (cs : List Char) : List Char :=
  replaceNumsF cs.length prevWord cs

/-- `CodePatternRecognizer.normalizeCode`: strip comments, replace string and
number literals by placeholders, collapse whitespace, trim. -/
def normalizeCode (code : String) : String :=
  String.mk (trimChars (collapseWs (replaceNums false (replaceStrLits
    (stripBlockComments (stripLineComments code.data))))))

/-- `CodePatternRecognizer.generatePatternKey`:
`code.split('\n').slice(0, 5).join(' ').substring(0, 100)`. -/
def generatePatternKey (code : String) : String :=
  String.mk ((List.intercalate [' '] ((splitOnChars ['\n'] code.data).take 5)).take 100)

/-- One row step of the Levenshtein dynamic programme of
`CodePatternRecognizer.levenshteinDistance`: `diag :: prest` is the previous
row aligned with `str1`, `left` the value just computed in the current row. -/
def levRowGo (c2 : Char) : List Char → List Nat → Nat → List Nat
  | [], _, _ => []
  | _ :: _, [], _ => []
  | c1 :: cs, diag :: prest, left =>
    let up := prest.headD 0
    let v := if c2 == c1 then diag else Nat.min (Nat.min diag up) left + 1
    v :: levRowGo c2 cs prest v

def levRows (str1 : List Char) : List Char → List Nat → Nat → List Nat
  | [], prevRow, _ => prevRow
  | c2 :: rest2, prevRow, i =>
    levRows str1 rest2 ((i + 1) :: levRowGo c2 str1 prevRow (i + 1)) (i + 1)

/-- `CodePatternRecognizer.levenshteinDistance`: the matrix dynamic programme,
one row per character of `str2`; the answer is `matrix[str2.length][str1.length]`. -/
def levenshteinDistance (str1 str2 : String) : Nat :=
  (levRows str1.data str2.data (List.range (str1.data.length + 1)) 0).getLastD 0

/-- `CodePatternRecognizer.calculateSimilarity`. -/
def calculateSimilarity (str1 str2 : String) : ℚ :=
  let longer := if str1.length > str2.length then str1 else str2
  let shorter := if str1.length > str2.length then str2 else str1
  if longer.length = 0 then 1
  else ((longer.length : ℚ) - (levenshteinDistance longer shorter : ℚ)) / (longer.length : ℚ)

structure CodePattern where
  id : String
  name : String
  description : String
  language : String
  pattern : String
  category : MemoryCategory
  importance : ImportanceLevel
  examples : List String
  frequency : Nat
  files : List String
deriving DecidableEq, Repr

structure PatternIssue where
  message : String
  line : Nat
deriving DecidableEq, Repr

def inconsistencyMessage (p : CodePattern) : String :=
  "代码风格与项目常见模式不一致。建议参考: " ++ p.name

/-- `CodePatternRecognizer.detectPatternInconsistencies`, with the recognizer's
pattern-table state passed explicitly (`patterns` is the flattened map). -/
def detectPatternInconsistencies (patterns : List CodePattern)
    (code filePath language : String) : List PatternIssue :=
  let languagePatterns := patterns.filter (fun p => p.language == language)
  if languagePatterns.isEmpty then []
  else
    let normalized := normalizeCode code
    let codeKey := generatePatternKey normalized
    languagePatterns.bind (fun p =>
      if 5 ≤ p.frequency then
        if calculateSimilarity codeKey (generatePatternKey p.pattern) < 0.3 then
          [PatternIssue.mk (inconsistencyMessage p) 1]
        else []
      else [])

/-- Definition following the spec's words: `1 − levenshteinDistance / max(length)`
(the distance taken between the longer and the shorter string; `1` for two empty
strings, matching the code's guard). -/
def specSimilarity (str1 str2 : String) : ℚ :=
  if max str1.length str2.length = 0 then 1
  else 1 - (levenshteinDistance (if str1.length > str2.length then str1 else str2)
      (if str1.length > str2.length then str2 else str1) : ℚ) /
      ((max str1.length str2.length : ℕ) : ℚ)

def c6PatternNear : CodePattern :=
  { id := "p1"
    name := "P1"
    description := ""
    language := "go"
    pattern := "abc"
    category := .codeStyle
    importance := .medium
    examples := []
    frequency := 5
    files := [] }

def c6PatternFar : CodePattern :=
  { id := "p2"
    name := "P2"
    description := ""
    language := "go"
    pattern := "zzzzzzzzzz"
    category := .codeStyle
    importance := .medium
    examples := []
    frequency := 5
    files := [] }

/-! ## `architectureChecker.ts` -/

inductive IssueType where
  | error
  | warning
  | info
deriving DecidableEq, Repr

structure ArchIssue where
  type : IssueType
  message : String
  file : Option String
  line : Option Nat
  column : Option Nat
  memoryId : Option String
  memoryContent : Option String
  suggestion : Option String
deriving DecidableEq, Repr

def archTagWords : List String := ["architecture", "arch", "structure", "module", "layer"]

/-- `ArchitectureChecker.loadArchitectureMemories`' filter over the stored corpus. -/
def filterArchMemories (allMemories : List Memory) : List Memory :=
  allMemories.filter (fun m => decide (
    m.category = .architecture ∨
    (m.category = .constraint ∧ m.importance = .critical) ∨
    m.tags.any (fun tag => archTagWords.contains (lowerStr tag)) = true))

/-- `content.split(/[。！？\n]/)`. -/
def sentenceSplit (content : String) : List (List Char) :=
  splitOnChars ['。', '！', '？', '\n'] content.data

/-- Case-insensitive prefix test (the regexes here carry the `i` flag). -/
def startsWithCI : List Char → List Char → Bool
  | _, [] => true
  | [], _ :: _ => false
  | c :: cs, d :: ds => (c.toLower == d.toLower) && startsWithCI cs ds

def lazyDelims : List Char := ['。', '，', ',']

/-- The lazy capture `(.+?)(?:[。，,]|$)`: the shortest nonempty prefix whose
next character is a delimiter, or the whole remainder. -/
def lazyCapture : List Char → Option (List Char)
  | [] => none
  | c :: t => some (c :: t.takeWhile (fun d => !lazyDelims.contains d))

/-- First match of `` `${keyword}[：:](.+?)(?:[。，,]|$)` `` (flag `i`) in a sentence. -/
def kwColonCaptureCI (kw : List Char) : List Char → Option (List Char)
  | [] => none
  | c :: t =>
    if startsWithCI (c :: t) kw then
      match (c :: t).drop kw.length with
      | d :: r =>
        if d == '：' || d == ':' then
          match lazyCapture r with
          | some cap => some cap
          | none => kwColonCaptureCI kw t
        else kwColonCaptureCI kw t
      | [] => kwColonCaptureCI kw t
    else kwColonCaptureCI kw t

/-- The shared shape of the `ArchitectureChecker.extract*` helpers: for each
sentence, for each trigger keyword contained (case-insensitively) in the
sentence, the first `keyword[：:]capture` match contributes its trimmed capture. -/
def extractByKeywords (keywords : List String) (content : String) : List String :=
  (sentenceSplit content).bind (fun sentence =>
    keywords.bind (fun keyword =>
      if hasSub (sentence.map Char.toLower) (keyword.data.map Char.toLower) then
        match kwColonCaptureCI keyword.data sentence with
        | some cap => [String.mk (trimChars cap)]
        | none => []
      else []))

def extractForbiddenPatternsArch (content : String) : List String :=
  extractByKeywords ["禁止", "不允许", "不能", "forbidden", "not allowed", "cannot"] content

def extractRequiredPatternsArch (content : String) : List String :=
  extractByKeywords ["必须", "应该", "must", "should"] content

def extractDirectoryRequirements (content : String) : List String :=
  extractByKeywords ["目录", "文件夹", "directory", "folder"] content

def extractModulePatterns (content : String) : List String :=
  extractByKeywords ["模块", "module"] content

/-- `ArchitectureChecker.extractForbiddenDependencies`: as above but the
sentence must additionally mention 依赖 or import. -/
def extractForbiddenDependencies (content : String) : List String :=
  (sentenceSplit content).bind (fun sentence =>
    (["禁止", "不允许", "forbidden", "not allowed"] : List String).bind (fun keyword =>
      if hasSub (sentence.map Char.toLower) (keyword.data.map Char.toLower) &&
          (hasSub (sentence.map Char.toLower) "依赖".data ||
           hasSub (sentence.map Char.toLower) "import".data) then
        match kwColonCaptureCI keyword.data sentence with
        | some cap => [String.mk (trimChars cap)]
        | none => []
      else []))

/-- `ArchitectureChecker.checkArchitectureConstraints`: only critical records
are examined; a forbidden pattern found in the (lowercased) code yields an
error, a required pattern missing yields a warning. -/
def archConstraintIssues (archMemories : List Memory) (code : String) : List ArchIssue :=
  let codeLower := lowerStr code
  archMemories.bind (fun memory =>
    if memory.importance ≠ .critical then []
    else
      let content := lowerStr memory.content
      let forbidden :=
        if strIncludes content "禁止" || strIncludes content "不允许" ||
            strIncludes content "forbidden" || strIncludes content "not allowed" then
          (extractForbiddenPatternsArch memory.content).bind (fun pattern =>
            if strIncludes codeLower (lowerStr pattern) then
              [ArchIssue.mk .error ("违反了架构约束: " ++ memory.content) none none none
                (some memory.id) (some memory.content)
                (some ("请移除或修改包含 \"" ++ pattern ++ "\" 的代码"))]
            else [])
        else []
      let required :=
        if strIncludes content "必须" || strIncludes content "应该" ||
            strIncludes content "must" || strIncludes content "should" then
          (extractRequiredPatternsArch memory.content).bind (fun pattern =>
            if !(strIncludes codeLower (lowerStr pattern)) then
              [ArchIssue.mk .warning ("建议遵循架构要求: " ++ memory.content) none none none
                (some memory.id) (some memory.content)
                (some ("请确保代码包含 \"" ++ pattern ++ "\" 相关的实现"))]
            else [])
        else []
      forbidden ++ required)

/-- Posix `path.basename`. -/
def pathBasename (p : String) : String :=
  String.mk ((splitOnChars ['/'] p.data).getLastD [])

def dropCommonSegs : List (List Char) → List (List Char) →
    List (List Char) × List (List Char)
  | a :: as2, b :: bs => if a == b then dropCommonSegs as2 bs else (a :: as2, b :: bs)
  | as2, bs => (as2, bs)

/-- Posix `path.relative` for the absolute paths this extension passes. -/
def pathRelative (fromPath toPath : String) : String :=
  let fromParts := (splitOnChars ['/'] fromPath.data).filter (fun s => !s.isEmpty)
  let toParts := (splitOnChars ['/'] toPath.data).filter (fun s => !s.isEmpty)
  let p := dropCommonSegs fromParts toParts
  String.mk (List.intercalate ['/'] (p.1.map (fun _ => ['.', '.']) ++ p.2))

/-- `ArchitectureChecker.shouldBeInDirectory`. -/
def shouldBeInDirectory (fileName code dir : String) : Bool :=
  let dirLower := lowerStr dir
  (strIncludes dirLower "controller" &&
    (strIncludes (lowerStr fileName) "controller" || strIncludes (lowerStr code) "controller")) ||
  (strIncludes dirLower "service" &&
    (strIncludes (lowerStr fileName) "service" || strIncludes (lowerStr code) "service")) ||
  (strIncludes dirLower "model" &&
    (strIncludes (lowerStr fileName) "model" || strIncludes (lowerStr code) "model"))

def hasModulePattern (code pattern : String) : Bool :=
  strIncludes (lowerStr code) (lowerStr pattern)

/-- `ArchitectureChecker.checkModuleDivision` (no workspace folder means no issues). -/
def moduleDivisionIssues (archMemories : List Memory) (workspacePath : Option String)
    (code filePath : String) : List ArchIssue :=
  match workspacePath with
  | none => []
  | some wsPath =>
    let fileName := pathBasename filePath
    let relativePath := pathRelative wsPath filePath
    archMemories.bind (fun memory =>
      if memory.category ≠ .architecture then []
      else
        let content := lowerStr memory.content
        let dirIssues :=
          if strIncludes content "目录" || strIncludes content "文件夹" ||
              strIncludes content "directory" || strIncludes content "folder" then
            (extractDirectoryRequirements memory.content).bind (fun dir =>
              if !(strIncludes (lowerStr relativePath) (lowerStr dir)) then
                if shouldBeInDirectory fileName code dir then
                  [ArchIssue.mk .warning ("文件位置可能不符合架构要求: " ++ memory.content)
                    (some filePath) none none (some memory.id) (some memory.content)
                    (some ("考虑将文件移动到包含 \"" ++ dir ++ "\" 的目录"))]
                else []
              else [])
          else []
        let moduleIssues :=
          if strIncludes content "模块" || strIncludes content "module" then
            (extractModulePatterns memory.content).bind (fun pattern =>
              if !(strIncludes (lowerStr fileName) (lowerStr pattern)) &&
                  !(hasModulePattern code pattern) then
                [ArchIssue.mk .info ("模块命名建议: " ++ memory.content)
                  (some filePath) none none (some memory.id) (some memory.content) none]
              else [])
          else []
        dirIssues ++ moduleIssues)

structure ModuleDep where
  fromMod : String
  toMod : String
  depType : String
deriving DecidableEq, Repr

def firstWsToken (cs : List Char) : List Char := cs.takeWhile (fun c => !isWsChar c)

/-- First `"([^"]+)"` capture in a string. -/
def firstQuoted : List Char → Option (List Char)
  | [] => none
  | c :: t =>
    if c == '"' then
      let inner := t.takeWhile (fun d => d ≠ '"')
      match t.drop inner.length with
      | _ :: _ => if inner.isEmpty then firstQuoted t else some inner
      | [] => none
    else firstQuoted t

/-- `import\s+(?:"([^"]+)"|\(([^)]+)\))` scanned globally over Go code; each
match yields the first quoted group (or the paren body) cut at its first
whitespace, exactly as `pkg.split(/\s+/)[0]`. -/
def scanGoImports : Nat → List Char → List String
  | 0, _ => []
  | _ + 1, [] => []
  | fuel + 1, c :: t =>
    if startsWith (c :: t) "import".data then
      let rest := (c :: t).drop 6
      let ws := rest.takeWhile isWsChar
      if ws.isEmpty then scanGoImports fuel t
      else
        match rest.drop ws.length with
        | '"' :: q =>
          let inner := q.takeWhile (fun d => d ≠ '"')
          (match q.drop inner.length with
           | _ :: cont =>
             if inner.isEmpty then scanGoImports fuel t
             else String.mk (firstWsToken inner) :: scanGoImports fuel cont
           | [] => scanGoImports fuel t)
        | '(' :: q =>
          let inner := q.takeWhile (fun d => d ≠ ')')
          (match q.drop inner.length with
           | _ :: cont =>
             if inner.isEmpty then scanGoImports fuel t
             else
               let pkg := match firstQuoted ('(' :: inner ++ [')']) with
                 | some quoted => quoted
                 | none => inner
               String.mk (firstWsToken pkg) :: scanGoImports fuel cont
           | [] => scanGoImports fuel t)
        | _ => scanGoImports fuel t
    else scanGoImports fuel t

def jsQuote (c : Char) : Bool := c == '"' || c == '\''

/-- `from\s+["']([^"']+)["']` anchored at the head of `cs`: the capture and
the suffix after the closing quote. -/
def fromQuoteAt (cs : List Char) : Option (List Char × List Char) :=
  if startsWith cs "from".data then
    let rest := cs.drop 4
    let ws := rest.takeWhile isWsChar
    if ws.isEmpty then none
    else
      match rest.drop ws.length with
      | q :: r =>
        if jsQuote q then
          let inner := r.takeWhile (fun d => !jsQuote d)
          match r.drop inner.length with
          | _ :: cont => if inner.isEmpty then none else some (inner, cont)
          | [] => none
        else none
      | [] => none
  else none

/-- Successive `from`-clauses found while scanning a single line (`.*` does
not cross a newline). -/
def fromQuoteScan : Nat → List Char → List (List Char × List Char)
  | 0, _ => []
  | _ + 1, [] => []
  | fuel + 1, c :: t =>
    if c == '\n' then []
    else
      match fromQuoteAt (c :: t) with
      | some (cap, cont) => (cap, cont) :: fromQuoteScan fuel cont
      | none => fromQuoteScan fuel t

/-- `(?:import|require)\s+.*from\s+["']([^"']+)["']` at the head of `cs`: the
greedy `.*` extends the match to the last `from`-clause on the line, while the
inner re-extraction reports the first one's capture. -/
def jsAltOneAt (cs : List Char) : Option (List Char × List Char) :=
  let kwLen := if startsWith cs "import".data then some 6
    else if startsWith cs "require".data then some 7
    else none
  match kwLen with
  | none => none
  | some k =>
    let rest := cs.drop k
    let ws := rest.takeWhile isWsChar
    if ws.isEmpty then none
    else
      let region := rest.drop ws.length
      match fromQuoteScan region.length region with
      | [] => none
      | m :: more => some (m.1, ((m :: more).getLastD m).2)

/-- `require\(["']([^"']+)["']\)` at the head of `cs`. -/
def jsAltTwoAt (cs : List Char) : Option (List Char × List Char) :=
  if startsWith cs "require(".data then
    match cs.drop 8 with
    | q :: r =>
      if jsQuote q then
        let inner := r.takeWhile (fun d => !jsQuote d)
        match r.drop inner.length with
        | _ :: cont =>
          if inner.isEmpty then none
          else
            match cont with
            | ')' :: cont2 => some (inner, cont2)
            | _ => none
        | [] => none
      else none
    | [] => none
  else none

def scanJsImports : Nat → List Char → List String
  | 0, _ => []
  | _ + 1, [] => []
  | fuel + 1, c :: t =>
    match jsAltOneAt (c :: t) with
    | some (cap, cont) => String.mk cap :: scanJsImports fuel cont
    | none =>
      match jsAltTwoAt (c :: t) with
      | some (cap, cont) => String.mk cap :: scanJsImports fuel cont
      | none => scanJsImports fuel t

/-- `ArchitectureChecker.extractDependencies`. -/
def extractDependencies (code : String) (language : String) : List ModuleDep :=
  (if language == "go" then
    (scanGoImports code.data.length code.data).map (fun pkg => ModuleDep.mk "" pkg "import")
  else []) ++
  (if language == "javascript" || language == "typescript" then
    (scanJsImports code.data.length code.data).map (fun pkg => ModuleDep.mk "" pkg "import")
  else [])

structure LayerRule where
  fromLayer : String
  toLayer : String
  allowed : Bool
deriving DecidableEq, Repr

/-- `ArchitectureChecker.extractLayerRules`. -/
def extractLayerRules (content : String) : List LayerRule :=
  let cl := lowerStr content
  if strIncludes cl "controller" && strIncludes cl "model" then
    if strIncludes cl "不能" || strIncludes cl "禁止" then
      [LayerRule.mk "controller" "model" false]
    else []
  else []

/-- `ArchitectureChecker.checkLayerRuleViolation`: the suggestion, if the file
belongs to the rule's source layer and some dependency hits the target layer. -/
def checkLayerRuleViolation (dependencies : List ModuleDep) (rule : LayerRule)
    (filePath : String) : Option String :=
  let fileName := lowerStr (pathBasename filePath)
  if !(strIncludes fileName (lowerStr rule.fromLayer)) then none
  else
    (dependencies.filter (fun dep =>
      strIncludes (lowerStr dep.toMod) (lowerStr rule.toLayer) && !rule.allowed)).head?.map
      (fun _ => "请移除对 " ++ rule.toLayer ++ " 层的直接依赖，使用 " ++
        rule.fromLayer ++ " 层应该通过服务层访问")

/-- `ArchitectureChecker.checkDependencies`. -/
def dependencyIssues (archMemories : List Memory) (code filePath language : String) :
    List ArchIssue :=
  let dependencies := extractDependencies code language
  archMemories.bind (fun memory =>
    if memory.category ≠ .architecture then []
    else
      let content := lowerStr memory.content
      let forbidden :=
        if strIncludes content "禁止" &&
            (strIncludes content "依赖" || strIncludes content "import" ||
             strIncludes content "dependency") then
          let forbiddenDeps := extractForbiddenDependencies memory.content
          dependencies.bind (fun dep =>
            forbiddenDeps.bind (fun fd =>
              if strIncludes (lowerStr dep.toMod) (lowerStr fd) then
                [ArchIssue.mk .error ("违反了架构依赖约束: " ++ memory.content) (some filePath)
                  none none (some memory.id) (some memory.content)
                  (some ("请移除对 \"" ++ dep.toMod ++ "\" 的依赖"))]
              else []))
        else []
      let layers :=
        if strIncludes content "层" || strIncludes content "layer" then
          (extractLayerRules memory.content).bind (fun rule =>
            match checkLayerRuleViolation dependencies rule filePath with
            | some violation =>
              [ArchIssue.mk .error ("违反了架构分层规则: " ++ memory.content) (some filePath)
                none none (some memory.id) (some memory.content) (some violation)]
            | none => [])
        else []
      forbidden ++ layers)

/-- `ArchitectureChecker.extractNamingRules`. -/
def extractNamingRules (content : String) : List String :=
  let cl := lowerStr content
  (if strIncludes cl "camelcase" || strIncludes cl "驼峰" then ["camelCase"] else []) ++
  (if strIncludes cl "pascalcase" || strIncludes cl "帕斯卡" then ["PascalCase"] else []) ++
  (if strIncludes cl "snake_case" || strIncludes cl "下划线" then ["snake_case"] else [])

/-- `ArchitectureChecker.matchesNamingRule` (unknown rules pass). -/
def matchesNamingRule (identifier : String) (rule : String) : Bool :=
  if rule == "camelCase" then
    match identifier.data with
    | c :: rest => ('a' ≤ c && c ≤ 'z') && rest.all (fun d => asciiLetter d || d.isDigit)
    | [] => false
  else if rule == "PascalCase" then
    match identifier.data with
    | c :: rest => ('A' ≤ c && c ≤ 'Z') && rest.all (fun d => asciiLetter d || d.isDigit)
    | [] => false
  else if rule == "snake_case" then
    match identifier.data with
    | c :: rest =>
      ('a' ≤ c && c ≤ 'z') && rest.all (fun d => ('a' ≤ d && d ≤ 'z') || d.isDigit || d == '_')
    | [] => false
  else true

def identStart (c : Char) : Bool := asciiLetter c || c == '_'

def identChar (c : Char) : Bool := asciiLetter c || c.isDigit || c == '_'

/-- `func\s+([a-zA-Z_][a-zA-Z0-9_]*)\s*\(` scanned globally. -/
def scanGoFuncs : Nat → List Char → List String
  | 0, _ => []
  | _ + 1, [] => []
  | fuel + 1, c :: t =>
    if startsWith (c :: t) "func".data then
      let rest := (c :: t).drop 4
      let ws := rest.takeWhile isWsChar
      if ws.isEmpty then scanGoFuncs fuel t
      else
        let r2 := rest.drop ws.length
        match r2 with
        | d :: _ =>
          if identStart d then
            let name := r2.takeWhile identChar
            let r3 := r2.drop name.length
            let ws2 := r3.takeWhile isWsChar
            match r3.drop ws2.length with
            | '(' :: cont => String.mk name :: scanGoFuncs fuel cont
            | _ => scanGoFuncs fuel t
          else scanGoFuncs fuel t
        | [] => scanGoFuncs fuel t
    else scanGoFuncs fuel t

/-- `type\s+([A-Z][a-zA-Z0-9_]*)\s+` scanned globally. -/
def scanGoTypes : Nat → List Char → List String
  | 0, _ => []
  | _ + 1, [] => []
  | fuel + 1, c :: t =>
    if startsWith (c :: t) "type".data then
      let rest := (c :: t).drop 4
      let ws := rest.takeWhile isWsChar
      if ws.isEmpty then scanGoTypes fuel t
      else
        let r2 := rest.drop ws.length
        match r2 with
        | d :: _ =>
          if 'A' ≤ d && d ≤ 'Z' then
            let name := r2.takeWhile identChar
            let r3 := r2.drop name.length
            let ws2 := r3.takeWhile isWsChar
            if ws2.isEmpty then scanGoTypes fuel t
            else String.mk name :: scanGoTypes fuel (r3.drop ws2.length)
          else scanGoTypes fuel t
        | [] => scanGoTypes fuel t
    else scanGoTypes fuel t

/-- One alternative of
`(?:function\s+(\w+)|const\s+(\w+)\s*=\s*(?:async\s+)?\(|class\s+([A-Z]\w*))`
anchored at the head of `cs`. -/
def jsIdentAt (cs : List Char) : Option (List Char × List Char) :=
  let tryFunction :=
    if startsWith cs "function".data then
      let rest := cs.drop 8
      let ws := rest.takeWhile isWsChar
      if ws.isEmpty then none
      else
        let r2 := rest.drop ws.length
        match r2 with
        | d :: _ =>
          if identStart d then
            let name := r2.takeWhile identChar
            some (name, r2.drop name.length)
          else none
        | [] => none
    else none
  match tryFunction with
  | some x => some x
  | none =>
    let tryConst :=
      if startsWith cs "const".data then
        let rest := cs.drop 5
        let ws := rest.takeWhile isWsChar
        if ws.isEmpty then none
        else
          let r2 := rest.drop ws.length
          let startOk := match r2 with
            | d :: _ => identStart d
            | [] => false
          let name := r2.takeWhile identChar
          if !startOk then none
          else
            let r3 := (r2.drop name.length).dropWhile isWsChar
            match r3 with
            | '=' :: r4 =>
              let r5 := r4.dropWhile isWsChar
              let withAsync :=
                if startsWith r5 "async".data then
                  let r6 := r5.drop 5
                  let ws6 := r6.takeWhile isWsChar
                  if ws6.isEmpty then none
                  else
                    match r6.drop ws6.length with
                    | '(' :: cont => some cont
                    | _ => none
                else none
              (match withAsync with
               | some cont => some (name, cont)
               | none =>
                 match r5 with
                 | '(' :: cont => some (name, cont)
                 | _ => none)
            | _ => none
      else none
    match tryConst with
    | some x => some x
    | none =>
      if startsWith cs "class".data then
        let rest := cs.drop 5
        let ws := rest.takeWhile isWsChar
        if ws.isEmpty then none
        else
          let r2 := rest.drop ws.length
          match r2 with
          | d :: _ =>
            if 'A' ≤ d && d ≤ 'Z' then
              let name := r2.takeWhile wordChar
              some (name, r2.drop name.length)
            else none
          | [] => none
      else none

def scanJsIdents : Nat → List Char → List String
  | 0, _ => []
  | _ + 1, [] => []
  | fuel + 1, c :: t =>
    match jsIdentAt (c :: t) with
    | some (name, cont) => String.mk name :: scanJsIdents fuel cont
    | none => scanJsIdents fuel t

/-- `ArchitectureChecker.extractIdentifiers`. -/
def extractIdentifiers (code : String) (language : String) : List String :=
  (if language == "go" then
    scanGoFuncs code.data.length code.data ++ scanGoTypes code.data.length code.data
  else []) ++
  (if language == "javascript" || language == "typescript" then
    scanJsIdents code.data.length code.data
  else [])

/-- `ArchitectureChecker.checkNamingConventions`. -/
def archNamingIssues (archMemories : List Memory) (code filePath language : String) :
    List ArchIssue :=
  archMemories.bind (fun memory =>
    if memory.category ≠ .architecture ∧ memory.category ≠ .codeStyle then []
    else
      let content := lowerStr memory.content
      if strIncludes content "命名" || strIncludes content "naming" ||
          strIncludes content "命名规范" then
        let namingRules := extractNamingRules memory.content
        let identifiers := extractIdentifiers code language
        identifiers.bind (fun identifier =>
          namingRules.bind (fun rule =>
            if !matchesNamingRule identifier rule then
              [ArchIssue.mk .warning ("命名可能不符合架构规范: " ++ memory.content)
                (some filePath) none none (some memory.id) (some memory.content)
                (some ("请检查 \"" ++ identifier ++ "\" 的命名是否符合规范"))]
            else []))
      else [])

structure ArchCheckResult where
  passed : Bool
  issues : List ArchIssue
  summary : String
deriving DecidableEq, Repr

def countArchIssues (issues : List ArchIssue) (ty : IssueType) : Nat :=
  (issues.filter (fun i => i.type == ty)).length

/-- `ArchitectureChecker.generateSummary`. -/
def archSummary (issues : List ArchIssue) : String :=
  let errorCount := countArchIssues issues .error
  let warningCount := countArchIssues issues .warning
  let infoCount := countArchIssues issues .info
  if errorCount == 0 && issues.length == 0 then
    "✅ 架构检查通过！代码完全符合项目架构要求。"
  else if errorCount == 0 then
    "✅ 架构检查通过（无错误） | ⚠️ 警告: " ++ toString warningCount ++
      " | ℹ️ 提示: " ++ toString infoCount
  else
    "❌ 架构检查失败 | 🔴 错误: " ++ toString errorCount ++ " | ⚠️ 警告: " ++
      toString warningCount ++ " | ℹ️ 提示: " ++ toString infoCount

/-- The four checks run by `ArchitectureChecker.checkArchitecture` over the
cached architecture memories, assembled into the result. -/
def computeArchResult (archMemories : List Memory) (workspacePath : Option String)
    (code filePath language : String) : ArchCheckResult :=
  let issues := archConstraintIssues archMemories code ++
    moduleDivisionIssues archMemories workspacePath code filePath ++
    dependencyIssues archMemories code filePath language ++
    archNamingIssues archMemories code filePath language
  ArchCheckResult.mk (countArchIssues issues .error == 0) issues (archSummary issues)

structure ArchCheckerState where
  architectureMemories : List Memory
  lastUpdateTime : Nat
deriving DecidableEq, Repr

/-- The `ArchitectureChecker` constructor: load and filter the stored corpus,
stamp the load time. -/
def mkArchChecker (storageMemories : List Memory) (now : Nat) : ArchCheckerState :=
  ArchCheckerState.mk (filterArchMemories storageMemories) now

/-- `ArchitectureChecker.checkArchitecture`: refresh the cache when more than
`updateInterval` (10000 ms) has passed, then run the checks. -/
def checkArchitecture (st : ArchCheckerState) (storageMemories : List Memory) (now : Nat)
    (workspacePath : Option String) (code filePath language : String) :
    ArchCheckResult × ArchCheckerState :=
  let st1 := if 10000 < now - st.lastUpdateTime then mkArchChecker storageMemories now else st
  (computeArchResult st1.architectureMemories workspacePath code filePath language, st1)

/-! ## `codeValidator.ts` -/

structure ValidationIssue where
  type : IssueType
  message : String
  line : Option Nat
  column : Option Nat
  memoryId : Option String
  memoryContent : Option String
deriving DecidableEq, Repr

structure ValidationResult where
  passed : Bool
  issues : List ValidationIssue
  summary : String
deriving DecidableEq, Repr

/-- All matches of `` `${kw}[：:]\s*([^excl]+)` `` with the `g` flag: each match
is `kw`, a colon, then the maximal nonempty run of non-excluded characters
(which absorbs the `\s*`); scanning resumes after the run. -/
def kwColonRunsF (kw : List Char) (excl : List Char) : Nat → List Char → List (List Char)
  | 0, _ => []
  | _ + 1, [] => []
  | fuel + 1, c :: t =>
    if startsWith (c :: t) kw then
      match (c :: t).drop kw.length with
      | d :: r =>
        if d == '：' || d == ':' then
          let run := r.takeWhile (fun x => !excl.contains x)
          if run.isEmpty then kwColonRunsF kw excl fuel t
          else run :: kwColonRunsF kw excl fuel (r.drop run.length)
        else kwColonRunsF kw excl fuel t
      | [] => kwColonRunsF kw excl fuel t
    else kwColonRunsF kw excl fuel t

def kwColonRuns (kw excl : List Char) (cs : List Char) : List (List Char) :=
  kwColonRunsF kw excl cs.length cs

/-- `CodeValidator.extractForbiddenPatterns`:
 `/禁止[：:]\s*([^。，]+)/g`, each match stripped of its prefix and trimmed. -/
def extractForbiddenPatternsV (content : String) : List String :=
  (kwColonRuns "禁止".data ['。', '，'] content.data).bind (fun run =>
    let pattern := String.mk (trimChars run)
    if pattern.isEmpty then [] else [pattern])

/-- `CodeValidator.extractForbiddenItems` (same body as
`extractForbiddenPatterns`). -/
def extractForbiddenItems (content : String) : List String :=
  (kwColonRuns "禁止".data ['。', '，'] content.data).bind (fun run =>
    let item := String.mk (trimChars run)
    if item.isEmpty then [] else [item])

/-- `CodeValidator.extractRequiredItems`: `/必须[：:]\s*([^。，]+)/g`. -/
def extractRequiredItems (content : String) : List String :=
  (kwColonRuns "必须".data ['。', '，'] content.data).bind (fun run =>
    let item := String.mk (trimChars run)
    if item.isEmpty then [] else [item])

/-- First match of `/目录结构[：:]\s*(.+)/`: the rest of the line after the
colon and any leading whitespace (no match when that is empty). -/
def findKwColonLine (kw : List Char) : List Char → Option (List Char)
  | [] => none
  | c :: t =>
    if startsWith (c :: t) kw then
      match (c :: t).drop kw.length with
      | d :: r =>
        if d == '：' || d == ':' then
          let cap := (r.dropWhile isWsChar).takeWhile (fun x => x ≠ '\n')
          if cap.isEmpty then findKwColonLine kw t else some cap
        else findKwColonLine kw t
      | [] => none
    else findKwColonLine kw t

/-- `CodeValidator.validateArchitecture`: directory-structure warnings and
forbidden-pattern errors from critical architecture records. -/
def validateArchitecture (memories : List Memory) (code filePath : String) :
    List ValidationIssue :=
  (memories.filter (fun m =>
    decide (m.category = .architecture ∧ m.importance = .critical))).bind (fun memory =>
    let dirIssues :=
      if strIncludes memory.content "目录结构" || strIncludes memory.content "目录" then
        match findKwColonLine "目录结构".data memory.content.data with
        | some cap =>
          let expectedDirs := (splitOnChars [','] cap).map (fun d => String.mk (trimChars d))
          let fileDir := String.mk (List.intercalate ['/']
            ((splitOnChars ['/'] filePath.data).dropLast))
          let isInExpectedDir := expectedDirs.any (fun dir => strIncludes fileDir dir)
          if !isInExpectedDir && decide (expectedDirs.length > 0) then
            [ValidationIssue.mk .warning
              ("文件路径可能不符合架构要求。预期目录: " ++ String.intercalate ", " expectedDirs)
              none none (some memory.id) (some memory.content)]
          else []
        | none => []
      else []
    let forbiddenIssues :=
      if strIncludes memory.content "禁止" || strIncludes memory.content "不允许" then
        (extractForbiddenPatternsV memory.content).bind (fun pattern =>
          if strIncludes code pattern then
            [ValidationIssue.mk .error ("违反了架构约束: " ++ pattern)
              none none (some memory.id) (some memory.content)]
          else [])
      else []
    dirIssues ++ forbiddenIssues)

/-- `CodeValidator.extractNamingStyle`. -/
def extractNamingStyle (content : String) : Option (String × ImportanceLevel) :=
  if strIncludes content "驼峰" || strIncludes content "camelCase" then
    some ("camelCase", .high)
  else if strIncludes content "蛇形" || strIncludes content "snake_case" then
    some ("snake_case", .high)
  else if strIncludes content "帕斯卡" || strIncludes content "PascalCase" then
    some ("PascalCase", .high)
  else none

/-- `CodeValidator.getDefaultNamingStyle`. -/
def getDefaultNamingStyle (language : String) : Option String :=
  let l := lowerStr language
  if l == "go" then some "camelCase"
  else if l == "java" then some "camelCase"
  else if l == "javascript" then some "camelCase"
  else if l == "typescript" then some "camelCase"
  else if l == "python" then some "snake_case"
  else if l == "csharp" then some "camelCase"
  else none

structure NamingRules where
  varStyle : String
  funcStyle : String
  classStyle : String
  constStyle : String
deriving DecidableEq, Repr

/-- `CodeValidator.getNamingRulesForLanguage`. -/
def getNamingRulesForLanguage (language : String) (expectedStyle : String) : NamingRules :=
  if language == "go" then
    NamingRules.mk "camelCase"
      (if expectedStyle == "PascalCase" then "PascalCase" else "camelCase")
      "PascalCase" "camelCase"
  else if language == "java" || language == "csharp" then
    NamingRules.mk "camelCase" "camelCase" "PascalCase" "UPPER_SNAKE_CASE"
  else if language == "python" then
    NamingRules.mk "snake_case" "snake_case" "PascalCase" "UPPER_SNAKE_CASE"
  else if language == "javascript" || language == "typescript" then
    NamingRules.mk "camelCase" "camelCase" "PascalCase" "UPPER_SNAKE_CASE"
  else
    NamingRules.mk expectedStyle expectedStyle "PascalCase" "UPPER_SNAKE_CASE"

def excludedNames : List String :=
  ["String", "Int", "Bool", "Error", "Context", "Request", "Response",
   "true", "false", "nil", "null", "undefined", "this", "self"]

def reLowerAlnum (s : String) : Bool :=
  match s.data with
  | c :: rest => ('a' ≤ c && c ≤ 'z') && rest.all (fun d => asciiLetter d || d.isDigit)
  | [] => false

def reLowerAlnumWithUpper (s : String) : Bool :=
  match s.data with
  | c :: rest => ('a' ≤ c && c ≤ 'z') && rest.all (fun d => asciiLetter d || d.isDigit) &&
      rest.any (fun d => 'A' ≤ d && d ≤ 'Z')
  | [] => false

def rePascal (s : String) : Bool :=
  match s.data with
  | c :: rest => ('A' ≤ c && c ≤ 'Z') && rest.all (fun d => asciiLetter d || d.isDigit)
  | [] => false

def reSnake (s : String) : Bool :=
  match s.data with
  | c :: rest =>
    ('a' ≤ c && c ≤ 'z') && rest.all (fun d => ('a' ≤ d && d ≤ 'z') || d.isDigit || d == '_')
  | [] => false

def reUpperSnake (s : String) : Bool :=
  match s.data with
  | c :: rest =>
    ('A' ≤ c && c ≤ 'Z') && rest.all (fun d => ('A' ≤ d && d ≤ 'Z') || d.isDigit || d == '_')
  | [] => false

/-- `CodeValidator.isValidNaming`. -/
def isValidNaming (name : String) (style : String) : Bool :=
  if excludedNames.contains name then true
  else if style == "camelCase" then reLowerAlnum name || reLowerAlnumWithUpper name
  else if style == "PascalCase" then rePascal name
  else if style == "snake_case" then reSnake name
  else if style == "UPPER_SNAKE_CASE" then reUpperSnake name
  else true

/-- `/\b(?:var|let|const)\s+([a-zA-Z_][a-zA-Z0-9_]*)/g` over a line; the
boolean tracks whether the previous character was a word character. -/
def scanVarDecls : Nat → Bool → List Char → List String
  | 0, _, _ => []
  | _ + 1, _, [] => []
  | fuel + 1, prevWord, c :: t =>
    let kw := if startsWith (c :: t) "var".data then some 3
      else if startsWith (c :: t) "let".data then some 3
      else if startsWith (c :: t) "const".data then some 5
      else none
    match kw with
    | some k =>
      if prevWord then scanVarDecls fuel (wordChar c) t
      else
        let rest := (c :: t).drop k
        let ws := rest.takeWhile isWsChar
        if ws.isEmpty then scanVarDecls fuel (wordChar c) t
        else
          let r2 := rest.drop ws.length
          match r2 with
          | d :: _ =>
            if identStart d then
              let name := r2.takeWhile identChar
              String.mk name :: scanVarDecls fuel true (r2.drop name.length)
            else scanVarDecls fuel (wordChar c) t
          | [] => scanVarDecls fuel (wordChar c) t
    | none => scanVarDecls fuel (wordChar c) t

/-- `/\b([a-zA-Z_][a-zA-Z0-9_]*)\s*[:=]\s*[^=]/g` over a line. -/
def scanAssigns : Nat → Bool → List Char → List String
  | 0, _, _ => []
  | _ + 1, _, [] => []
  | fuel + 1, prevWord, c :: t =>
    if identStart c && !prevWord then
      let name := (c :: t).takeWhile identChar
      let r1 := (c :: t).drop name.length
      let ws1 := r1.takeWhile isWsChar
      match r1.drop ws1.length with
      | op :: r2 =>
        if op == ':' || op == '=' then
          let ws2 := r2.takeWhile isWsChar
          match r2.drop ws2.length with
          | e :: r3 =>
            if e ≠ '=' then String.mk name :: scanAssigns fuel (wordChar e) r3
            else if ws2.isEmpty then scanAssigns fuel (wordChar c) t
            else String.mk name :: scanAssigns fuel false (e :: r3)
          | [] =>
            if ws2.isEmpty then scanAssigns fuel (wordChar c) t
            else String.mk name :: scanAssigns fuel false []
        else scanAssigns fuel (wordChar c) t
      | [] => scanAssigns fuel (wordChar c) t
    else scanAssigns fuel (wordChar c) t

def typedDeclKws : List (List Char) :=
  ["int".data, "string".data, "float".data, "bool".data, "char".data]

def firstPrefixWord (words : List (List Char)) (cs : List Char) :
    Option (List Char × List Char) :=
  words.findSome? (fun w => if startsWith cs w then some (w, cs.drop w.length) else none)

/-- `/\b(int|string|float|bool|char)\s+([a-zA-Z_][a-zA-Z0-9_]*)/g`; since
`match[1]` is nonempty, the reported "variable name" is the type word. -/
def scanTypedDecls : Nat → Bool → List Char → List String
  | 0, _, _ => []
  | _ + 1, _, [] => []
  | fuel + 1, prevWord, c :: t =>
    if prevWord then scanTypedDecls fuel (wordChar c) t
    else
      match firstPrefixWord typedDeclKws (c :: t) with
      | some (w, rest) =>
        let ws := rest.takeWhile isWsChar
        if ws.isEmpty then scanTypedDecls fuel (wordChar c) t
        else
          let r2 := rest.drop ws.length
          match r2 with
          | d :: _ =>
            if identStart d then
              let name := r2.takeWhile identChar
              String.mk w :: scanTypedDecls fuel true (r2.drop name.length)
            else scanTypedDecls fuel (wordChar c) t
          | [] => scanTypedDecls fuel (wordChar c) t
      | none => scanTypedDecls fuel (wordChar c) t

/-- `CodeValidator.checkVariableNaming` for one line. -/
def checkVariableNaming (line : String) (rules : NamingRules) (lineNumber : Nat) :
    List String :=
  let names := scanVarDecls line.data.length false line.data ++
    scanAssigns line.data.length false line.data ++
    scanTypedDecls line.data.length false line.data
  names.bind (fun varName =>
    if !isValidNaming varName rules.varStyle then
      ["行 " ++ toString lineNumber ++ ": 变量 \"" ++ varName ++ "\" 不符合 " ++
        rules.varStyle ++ " 命名规范"]
    else [])

/-- `` `\b?kw\s+(\w+)\s*\(` `` scanned globally over a line (`requireB` turns
the leading word boundary on). -/
def scanKwFuncF (kw : List Char) (requireB : Bool) : Nat → Bool → List Char → List String
  | 0, _, _ => []
  | _ + 1, _, [] => []
  | fuel + 1, prevWord, c :: t =>
    if (!requireB || !prevWord) && startsWith (c :: t) kw then
      let rest := (c :: t).drop kw.length
      let ws := rest.takeWhile isWsChar
      if ws.isEmpty then scanKwFuncF kw requireB fuel (wordChar c) t
      else
        let r2 := rest.drop ws.length
        let name := r2.takeWhile wordChar
        if name.isEmpty then scanKwFuncF kw requireB fuel (wordChar c) t
        else
          let r3 := r2.drop name.length
          let ws2 := r3.takeWhile isWsChar
          match r3.drop ws2.length with
          | '(' :: cont => String.mk name :: scanKwFuncF kw requireB fuel false cont
          | _ => scanKwFuncF kw requireB fuel (wordChar c) t
    else scanKwFuncF kw requireB fuel (wordChar c) t

def scanKwFunc (requireB : Bool) (kw : List Char) (line : String) : List String :=
  scanKwFuncF kw requireB line.data.length false line.data

def javaAccessWords : List (List Char) :=
  ["public".data, "private".data, "protected".data]

def javaTypeWords : List (List Char) :=
  ["void".data, "int".data, "string".data, "bool".data]

/-- The `(?:void|int|string|bool)\s+(\w+)\s*\(` tail of the Java pattern. -/
def javaTypeAt (cs : List Char) : Option (List Char × List Char) :=
  match firstPrefixWord javaTypeWords cs with
  | some (_, rest) =>
    let ws := rest.takeWhile isWsChar
    if ws.isEmpty then none
    else
      let r2 := rest.drop ws.length
      let name := r2.takeWhile wordChar
      if name.isEmpty then none
      else
        let r3 := r2.drop name.length
        let ws2 := r3.takeWhile isWsChar
        match r3.drop ws2.length with
        | '(' :: cont => some (name, cont)
        | _ => none
  | none => none

def javaStaticOrType (cs : List Char) : Option (List Char × List Char) :=
  let withStatic :=
    if startsWith cs "static".data then
      javaTypeAt ((cs.drop 6).dropWhile isWsChar)
    else none
  match withStatic with
  | some x => some x
  | none => javaTypeAt cs

/-- `\b(?:public|private|protected)?\s*(?:static)?\s*(?:void|int|string|bool)\s+(\w+)\s*\(`
anchored at the head of `cs`. -/
def javaFuncAt (cs : List Char) : Option (List Char × List Char) :=
  let withAccess :=
    match firstPrefixWord javaAccessWords cs with
    | some (_, rest) => javaStaticOrType (rest.dropWhile isWsChar)
    | none => none
  match withAccess with
  | some x => some x
  | none => javaStaticOrType (cs.dropWhile isWsChar)

def scanJavaFuncs : Nat → Bool → List Char → List String
  | 0, _, _ => []
  | _ + 1, _, [] => []
  | fuel + 1, prevWord, c :: t =>
    if prevWord == wordChar c then scanJavaFuncs fuel (wordChar c) t
    else
      match javaFuncAt (c :: t) with
      | some (name, cont) => String.mk name :: scanJavaFuncs fuel false cont
      | none => scanJavaFuncs fuel (wordChar c) t

/-- `/const\s+(\w+)\s*=\s*(?:async\s+)?\(/g` anchored at the head of `cs`. -/
def constArrowAt (cs : List Char) : Option (List Char × List Char) :=
  if startsWith cs "const".data then
    let rest := cs.drop 5
    let ws := rest.takeWhile isWsChar
    if ws.isEmpty then none
    else
      let r2 := rest.drop ws.length
      let name := r2.takeWhile wordChar
      if name.isEmpty then none
      else
        match (r2.drop name.length).dropWhile isWsChar with
        | '=' :: r4 =>
          let r5 := r4.dropWhile isWsChar
          let withAsync :=
            if startsWith r5 "async".data then
              let r6 := r5.drop 5
              let ws6 := r6.takeWhile isWsChar
              if ws6.isEmpty then none
              else
                match r6.drop ws6.length with
                | '(' :: cont => some cont
                | _ => none
            else none
          (match withAsync with
           | some cont => some (name, cont)
           | none =>
             match r5 with
             | '(' :: cont => some (name, cont)
             | _ => none)
        | _ => none
  else none

def scanConstArrows : Nat → List Char → List String
  | 0, _ => []
  | _ + 1, [] => []
  | fuel + 1, c :: t =>
    match constArrowAt (c :: t) with
    | some (name, cont) => String.mk name :: scanConstArrows fuel cont
    | none => scanConstArrows fuel t

/-- `CodeValidator.checkFunctionNaming` for one line (the patterns are applied
regardless of `language`). -/
def checkFunctionNaming (line : String) (rules : NamingRules) (language : String)
    (lineNumber : Nat) : List String :=
  let names :=
    scanKwFunc true "func".data line ++
    scanKwFunc true "function".data line ++
    scanKwFunc true "def".data line ++
    scanJavaFuncs line.data.length false line.data ++
    scanConstArrows line.data.length line.data
  names.bind (fun funcName =>
    if !isValidNaming funcName rules.funcStyle then
      ["行 " ++ toString lineNumber ++ ": 函数 \"" ++ funcName ++ "\" 不符合 " ++
        rules.funcStyle ++ " 命名规范"]
    else [])

/-- `` `\bkw\s+(\w+)` `` scanned globally over a line. -/
def scanKwIdentF (kw : List Char) : Nat → Bool → List Char → List String
  | 0, _, _ => []
  | _ + 1, _, [] => []
  | fuel + 1, prevWord, c :: t =>
    if !prevWord && startsWith (c :: t) kw then
      let rest := (c :: t).drop kw.length
      let ws := rest.takeWhile isWsChar
      if ws.isEmpty then scanKwIdentF kw fuel (wordChar c) t
      else
        let r2 := rest.drop ws.length
        let name := r2.takeWhile wordChar
        if name.isEmpty then scanKwIdentF kw fuel (wordChar c) t
        else String.mk name :: scanKwIdentF kw fuel true (r2.drop name.length)
    else scanKwIdentF kw fuel (wordChar c) t

/-- `/\btype\s+(\w+)\s+(?:struct|interface)/g` over a line. -/
def scanGoTypeDecls : Nat → Bool → List Char → List String
  | 0, _, _ => []
  | _ + 1, _, [] => []
  | fuel + 1, prevWord, c :: t =>
    if !prevWord && startsWith (c :: t) "type".data then
      let rest := (c :: t).drop 4
      let ws := rest.takeWhile isWsChar
      if ws.isEmpty then scanGoTypeDecls fuel (wordChar c) t
      else
        let r2 := rest.drop ws.length
        let name := r2.takeWhile wordChar
        if name.isEmpty then scanGoTypeDecls fuel (wordChar c) t
        else
          let r3 := r2.drop name.length
          let ws2 := r3.takeWhile isWsChar
          if ws2.isEmpty then scanGoTypeDecls fuel (wordChar c) t
          else
            let r4 := r3.drop ws2.length
            if startsWith r4 "struct".data then
              String.mk name :: scanGoTypeDecls fuel true (r4.drop 6)
            else if startsWith r4 "interface".data then
              String.mk name :: scanGoTypeDecls fuel true (r4.drop 9)
            else scanGoTypeDecls fuel (wordChar c) t
    else scanGoTypeDecls fuel (wordChar c) t

/-- `CodeValidator.checkClassNaming` for one line. -/
def checkClassNaming (line : String) (rules : NamingRules) (language : String)
    (lineNumber : Nat) : List String :=
  let names :=
    scanGoTypeDecls line.data.length false line.data ++
    scanKwIdentF "class".data line.data.length false line.data ++
    scanKwIdentF "interface".data line.data.length false line.data
  names.bind (fun className =>
    if !isValidNaming className rules.classStyle then
      ["行 " ++ toString lineNumber ++ ": 类/结构体 \"" ++ className ++ "\" 不符合 " ++
        rules.classStyle ++ " 命名规范"]
    else [])

/-- `CodeValidator.checkNamingViolations`. -/
def checkNamingViolations (code : String) (namingStyle : String × ImportanceLevel)
    (language : String) : List String :=
  let rules := getNamingRulesForLanguage language namingStyle.1
  ((splitOnChars ['\n'] code.data).enum).bind (fun p =>
    checkVariableNaming (String.mk p.2) rules (p.1 + 1) ++
    checkFunctionNaming (String.mk p.2) rules language (p.1 + 1) ++
    checkClassNaming (String.mk p.2) rules language (p.1 + 1))

/-- `CodeValidator.validateNaming`. -/
def validateNaming (memories : List Memory) (code language : String) :
    List ValidationIssue :=
  let namingMemories := memories.filter (fun m => decide (
    (m.category = .codeStyle ∨ m.tags.contains "naming" = true ∨
      strIncludes m.content "命名" = true) ∧
    (m.importance = .critical ∨ m.importance = .high)))
  let namingMemories :=
    if namingMemories.isEmpty then
      memories.filter (fun m => decide (
        m.category = .codeStyle ∧ strIncludes m.content "命名" = true))
    else namingMemories
  if namingMemories.isEmpty then
    match getDefaultNamingStyle language with
    | some defaultStyle =>
      (checkNamingViolations code (defaultStyle, .medium) language).map (fun violation =>
        ValidationIssue.mk .warning violation none none none none)
    | none => []
  else
    namingMemories.bind (fun memory =>
      match extractNamingStyle memory.content with
      | some namingStyle =>
        (checkNamingViolations code namingStyle language).map (fun violation =>
          ValidationIssue.mk (if namingStyle.2 = .critical then .error else .warning)
            violation none none (some memory.id) (some memory.content))
      | none => [])

/-- `line.match(/\bfunction\b|\bdef\b|\bfn\b/)` as a decision. -/
def hasWordF (w : List Char) : Bool → List Char → Bool
  | _, [] => false
  | prevWord, c :: t =>
    (!prevWord && startsWith (c :: t) w &&
      (match (c :: t).drop w.length with
       | d :: _ => !wordChar d
       | [] => true)) ||
    hasWordF w (wordChar c) t

def hasWord (w cs : List Char) : Bool := hasWordF w false cs

def lineHasFunctionKw (line : List Char) : Bool :=
  hasWord "function".data line || hasWord "def".data line || hasWord "fn".data line

def braceDelta (line : List Char) : Int :=
  ((line.filter (fun c => c == '{')).length : Int) -
    ((line.filter (fun c => c == '}')).length : Int)

def countFnLoop (total : Nat) : List (List Char) → Nat → Option Nat → Int → Nat
  | [], _, _, _ => total
  | line :: rest, i, fs, bc =>
    let fs2 := if lineHasFunctionKw line then some i else fs
    let bc2 := if lineHasFunctionKw line then 0 else bc
    match fs2 with
    | some s =>
      let bc3 := bc2 + braceDelta line
      if bc3 == 0 && decide (s < i) then i - s + 1
      else countFnLoop total rest (i + 1) (some s) bc3
    | none => countFnLoop total rest (i + 1) none bc2

/-- `CodeValidator.countFunctionLines`. -/
def countFunctionLines (code : String) : Nat :=
  let lines := splitOnChars ['\n'] code.data
  countFnLoop lines.length lines 0 none 0

/-- `CodeValidator.validateCodeStyle`. -/
def validateCodeStyle (memories : List Memory) (code : String) : List ValidationIssue :=
  (memories.filter (fun m =>
    decide (m.category = .codeStyle ∧ m.importance = .high))).bind (fun memory =>
    let commentIssues :=
      if strIncludes memory.content "注释" then
        let hasComments := strIncludes code "//" || strIncludes code "/*" ||
          strIncludes code "#"
        if !hasComments && decide (code.data.length > 100) then
          [ValidationIssue.mk .info "建议添加代码注释" none none
            (some memory.id) (some memory.content)]
        else []
      else []
    let lengthIssues :=
      if strIncludes memory.content "函数长度" || strIncludes memory.content "代码长度" then
        if decide (countFunctionLines code > 50) then
          [ValidationIssue.mk .warning
            ("函数可能过长（" ++ toString (countFunctionLines code) ++ " 行），建议拆分")
            none none (some memory.id) (some memory.content)]
        else []
      else []
    commentIssues ++ lengthIssues)

def stopWords : List String := ["的", "和", "或", "是", "在", "有"]

/-- `CodeValidator.extractKeywords`: split on runs of `[，。\s]`, keep words
longer than 2 characters that are not stop words, take the first 5. -/
def extractKeywordsV (content : String) : List String :=
  (((splitRuns (fun c => c == '，' || c == '。' || isWsChar c) content.data).map
    (fun w => String.mk w)).filter
    (fun w => decide (w.data.length > 2) && !stopWords.contains w)).take 5

structure BusinessConstraint where
  ctype : String
  patterns : List String
  condition : Option String
  requirement : Option (List String)
deriving DecidableEq, Repr

/-- `content.split(/[，、,]/).map(s => s.trim()).filter(s => s)`. -/
def splitItems (cs : List Char) : List String :=
  ((splitOnChars ['，', '、', ','] cs).map (fun s => String.mk (trimChars s))).filter
    (fun s => !s.isEmpty)

def businessRunDelims : List Char := ['。', '，', '；']

def businessForbidden (rule : String) : List BusinessConstraint :=
  (kwColonRuns "禁止".data businessRunDelims rule.data).bind (fun run =>
    let items := splitItems run
    if items.isEmpty then [] else [BusinessConstraint.mk "forbidden" items none none])

def businessRequired (rule : String) : List BusinessConstraint :=
  (kwColonRuns "必须".data businessRunDelims rule.data).bind (fun run =>
    let items := splitItems run
    if items.isEmpty then [] else [BusinessConstraint.mk "required" items none none])

/-- `\s*(.+)` at `r`: the rest of the line after leading whitespace (empty
captures yield no items, modelled as no match). -/
def reqCapture (r : List Char) : Option (List Char) :=
  let afterWs := r.dropWhile isWsChar
  if afterWs.isEmpty then none else some (afterWs.takeWhile (fun c => c ≠ '\n'))

/-- First `` `kw[：:]\s*(.+)` `` match in a match string. -/
def reqSearchKw (kw : List Char) : List Char → Option (List Char)
  | [] => none
  | c :: t =>
    if startsWith (c :: t) kw then
      match (c :: t).drop kw.length with
      | d :: r =>
        if d == '：' || d == ':' then
          match reqCapture r with
          | some cap => some cap
          | none => reqSearchKw kw t
        else reqSearchKw kw t
      | [] => none
    else reqSearchKw kw t

/-- The viable `则[：:]` positions reachable by `[^，。]+` from the start of
`rest`: pairs of (text before the 则, text after its colon). -/
def viableThens : List Char → List Char → List (List Char × List Char)
  | _, [] => []
  | pre, c :: t =>
    if c == '，' || c == '。' then []
    else
      let here :=
        if c == '则' ∧ pre ≠ [] then
          match t with
          | d :: r =>
            if d == '：' || d == ':' then
              match r with
              | e :: _ => if !businessRunDelims.contains e then [(pre.reverse, r)] else []
              | [] => []
            else []
          | [] => []
        else []
      here ++ viableThens (c :: pre) t

/-- `/如果[^，。]+则[：:]\s*([^。，；]+)/g` with the two inner re-extractions of
`extractBusinessConstraints`. -/
def scanIfThen : Nat → List Char → List BusinessConstraint
  | 0, _ => []
  | _ + 1, [] => []
  | fuel + 1, c :: t =>
    if startsWith (c :: t) "如果".data then
      let rest := (c :: t).drop 2
      match (viableThens [] rest).getLast? with
      | some (condRegion, afterColon) =>
        let cap := afterColon.takeWhile (fun x => !businessRunDelims.contains x)
        let cont := afterColon.drop cap.length
        let condition := String.mk (trimChars (condRegion.takeWhile (fun x => x ≠ '则')))
        let requirement :=
          match reqSearchKw ['则'] (condRegion ++ '则' :: '：' :: cap) with
          | some reqCap => splitItems reqCap
          | none => []
        (if (condRegion.takeWhile (fun x => x ≠ '则')).isEmpty then []
         else if !condition.isEmpty && decide (requirement.length > 0) then
          [BusinessConstraint.mk "conditional" [] (some condition) (some requirement)]
         else []) ++ scanIfThen fuel cont
      | none => scanIfThen fuel t
    else scanIfThen fuel t

/-- The viable `时[，,]必须[：:]` positions reachable by `[^，。]+` from the
start of `rest`. -/
def viableShis : List Char → List Char → List (List Char × List Char)
  | _, [] => []
  | pre, c :: t =>
    if c == '，' || c == '。' then []
    else
      let here :=
        if c == '时' ∧ pre ≠ [] then
          match t with
          | d :: r =>
            if d == '，' || d == ',' then
              if startsWith r "必须".data then
                match r.drop 2 with
                | e :: r2 =>
                  if e == '：' || e == ':' then
                    match r2 with
                    | f :: _ =>
                      if !businessRunDelims.contains f then [(pre.reverse, r2)] else []
                    | [] => []
                  else []
                | [] => []
              else []
            else []
          | [] => []
        else []
      here ++ viableShis (c :: pre) t

/-- `/当[^，。]+时[，,]必须[：:]\s*([^。，；]+)/g` with its inner re-extractions. -/
def scanWhenMust : Nat → List Char → List BusinessConstraint
  | 0, _ => []
  | _ + 1, [] => []
  | fuel + 1, c :: t =>
    if c == '当' then
      match (viableShis [] t).getLast? with
      | some (condRegion, afterColon) =>
        let cap := afterColon.takeWhile (fun x => !businessRunDelims.contains x)
        let cont := afterColon.drop cap.length
        let condition := String.mk (trimChars (condRegion.takeWhile (fun x => x ≠ '时')))
        let requirement :=
          match reqSearchKw "必须".data
              (condRegion ++ '时' :: '，' :: '必' :: '须' :: '：' :: cap) with
          | some reqCap => splitItems reqCap
          | none => []
        (if (condRegion.takeWhile (fun x => x ≠ '时')).isEmpty then []
         else if !condition.isEmpty && decide (requirement.length > 0) then
          [BusinessConstraint.mk "conditional" [] (some condition) (some requirement)]
         else []) ++ scanWhenMust fuel cont
      | none => scanWhenMust fuel t
    else scanWhenMust fuel t

/-- `CodeValidator.extractBusinessConstraints`. -/
def extractBusinessConstraints (rule : String) : List BusinessConstraint :=
  businessForbidden rule ++ businessRequired rule ++
  scanIfThen rule.data.length rule.data ++ scanWhenMust rule.data.length rule.data

def joinOrQuotes (l : List String) : String := String.intercalate "\" 或 \"" l

/-- `CodeValidator.checkBusinessRuleViolations`. -/
def checkBusinessRuleViolations (code rule : String) : List String :=
  let codeLower := lowerStr code
  (extractBusinessConstraints rule).bind (fun constraint =>
    (if constraint.ctype == "forbidden" then
      constraint.patterns.bind (fun pattern =>
        if strIncludes codeLower (lowerStr pattern) then
          ["违反了业务规则: 禁止使用 \"" ++ pattern ++ "\""]
        else [])
    else []) ++
    (if constraint.ctype == "required" then
      let found := constraint.patterns.any (fun pattern =>
        strIncludes codeLower (lowerStr pattern))
      if !found && decide (constraint.patterns.length > 0) then
        ["违反了业务规则: 必须包含 \"" ++ joinOrQuotes constraint.patterns ++ "\""]
      else []
    else []) ++
    (if constraint.ctype == "conditional" then
      match constraint.condition, constraint.requirement with
      | some condition, some requirement =>
        if !condition.isEmpty && decide (requirement.length > 0) then
          if strIncludes codeLower (lowerStr condition) then
            if !(requirement.any (fun req => strIncludes codeLower (lowerStr req))) then
              ["违反了业务规则: 当使用 \"" ++ condition ++ "\" 时，必须包含 \"" ++
                joinOrQuotes requirement ++ "\""]
            else []
          else []
        else []
      | _, _ => []
    else []))

/-- `CodeValidator.validateBusinessRules`. -/
def validateBusinessRules (memories : List Memory) (code : String) :
    List ValidationIssue :=
  (memories.filter (fun m =>
    decide (m.category = .businessRule ∧ m.importance = .critical))).bind (fun memory =>
    let keywords := extractKeywordsV memory.content
    let codeLower := lowerStr code
    let hasRelatedCode := keywords.any (fun keyword =>
      strIncludes codeLower (lowerStr keyword))
    if hasRelatedCode then
      (checkBusinessRuleViolations code memory.content).map (fun violation =>
        ValidationIssue.mk .error ("违反业务规则: " ++ violation) none none
          (some memory.id) (some memory.content))
    else [])

/-- `CodeValidator.validateConstraints`: only critical constraint records;
forbidden items found in the code yield errors, required items missing yield
warnings. -/
def validateConstraints (memories : List Memory) (code : String) :
    List ValidationIssue :=
  (memories.filter (fun m =>
    decide (m.category = .constraint ∧ m.importance = .critical))).bind (fun memory =>
    let forbidden :=
      if strIncludes memory.content "禁止" || strIncludes memory.content "不允许" then
        (extractForbiddenItems memory.content).bind (fun item =>
          if strIncludes code item then
            [ValidationIssue.mk .error ("使用了禁止的内容: " ++ item) none none
              (some memory.id) (some memory.content)]
          else [])
      else []
    let required :=
      if strIncludes memory.content "必须" || strIncludes memory.content "要求" then
        (extractRequiredItems memory.content).bind (fun item =>
          if !(strIncludes code item) then
            [ValidationIssue.mk .warning ("建议使用: " ++ item) none none
              (some memory.id) (some memory.content)]
          else [])
      else []
    forbidden ++ required)

def countVIssues (issues : List ValidationIssue) (ty : IssueType) : Nat :=
  (issues.filter (fun i => i.type == ty)).length

def validationSummary (issues : List ValidationIssue) : String :=
  let errorCount := countVIssues issues .error
  let warningCount := countVIssues issues .warning
  let infoCount := countVIssues issues .info
  if errorCount == 0 && issues.length == 0 then
    "✅ 代码验证通过！代码完全符合项目记忆要求。"
  else if errorCount == 0 then
    "✅ 代码验证通过（无错误） | ⚠️ 警告: " ++ toString warningCount ++
      " | ℹ️ 提示: " ++ toString infoCount
  else
    "❌ 代码验证失败 | 🔴 错误: " ++ toString errorCount ++ " | ⚠️ 警告: " ++
      toString warningCount ++ " | ℹ️ 提示: " ++ toString infoCount

def archToValidation (i : ArchIssue) : ValidationIssue :=
  ValidationIssue.mk i.type i.message i.line i.column i.memoryId i.memoryContent

/-- `CodeValidator.validateCode`: the five stages plus the optional
architecture checker, assembled into the result (and the checker's possibly
refreshed state). -/
def validateCode (memories : List Memory) (archChecker : Option ArchCheckerState)
    (storageMemories : List Memory) (now : Nat) (workspacePath : Option String)
    (code filePath language : String) : ValidationResult × Option ArchCheckerState :=
  let archPart : List ValidationIssue × Option ArchCheckerState :=
    match archChecker with
    | some st =>
      let r := checkArchitecture st storageMemories now workspacePath code filePath language
      (r.1.issues.map archToValidation, some r.2)
    | none => ([], none)
  let issues := validateArchitecture memories code filePath ++ archPart.1 ++
    validateNaming memories code language ++
    validateCodeStyle memories code ++
    validateBusinessRules memories code ++
    validateConstraints memories code
  (ValidationResult.mk (countVIssues issues .error == 0) issues
    (validationSummary issues), archPart.2)

/-! ## Concrete inputs and auxiliary definitions used by the claims -/
def c2WitnessMemory : Memory :=
  { id := "w1"
    content := "rule"
    category := .constraint
    timestamp := 0
    tags := []
    importance := .critical
    relatedFiles := none
    confidence := none }

/-- The number of records (in compression order) that fit the budget under the
light compression used by the greedy phase of `compressMemories`. -/
def greedyFitCount (budget : Nat) : List Memory → Nat → Nat
  | [], _ => 0
  | m :: rest, tokenCount =>
    let contentTokens := estimateTokens (compressContent m.content false)
    if tokenCount + contentTokens ≤ budget then
      greedyFitCount budget rest (tokenCount + contentTokens) + 1
    else 0

/-- A content of 200 CJK characters: estimated cost 300 tokens. -/
def zhong200 : String := String.mk (List.replicate 200 '中')

def c1Records : List Memory :=
  (List.range 15).map (fun i =>
    { id := toString i
      content := zhong200
      category := .constraint
      timestamp := 0
      tags := []
      importance := .critical
      relatedFiles := none
      confidence := none })

def c3Features : CodeFeatures :=
  { filePath := "src/auth.ts"
    fileName := "auth.ts"
    fileDir := "src"
    language := "typescript"
    functions := []
    classes := []
    imports := []
    keywords := []
    content := "" }

def c3Overflow : List Memory :=
  (List.range 21).map (fun i =>
    { id := toString i
      content := "r"
      category := .other
      timestamp := 0
      tags := []
      importance := .critical
      relatedFiles := none
      confidence := none })

def c3TagMem (i : Nat) : Memory :=
  { id := "t" ++ toString i
    content := "r"
    category := .other
    timestamp := 0
    tags := ["auth"]
    importance := .high
    relatedFiles := none
    confidence := none }

def c3PlainMem (i : Nat) : Memory :=
  { id := "p" ++ toString i
    content := "r"
    category := .other
    timestamp := 0
    tags := []
    importance := .high
    relatedFiles := none
    confidence := none }

/-- 25 high-importance records, no critical ones; the first 5 match the file by tag. -/
def c3ExampleCorpus : List Memory :=
  (List.range 5).map c3TagMem ++ (List.range 20).map c3PlainMem

def c3WitnessMemory : Memory :=
  { id := "w3"
    content := "r"
    category := .other
    timestamp := 0
    tags := []
    importance := .medium
    relatedFiles := none
    confidence := none }

def c4MemA : Memory :=
  { id := "a"
    content := "r1"
    category := .other
    timestamp := 0
    tags := []
    importance := .critical
    relatedFiles := none
    confidence := none }

def c4MemB : Memory :=
  { id := "b"
    content := "r2"
    category := .other
    timestamp := 0
    tags := ["auth"]
    importance := .critical
    relatedFiles := none
    confidence := none }

/-- Definition following the spec's words: the number of non-CJK words — the
nonempty whitespace-delimited words that contain no CJK character. -/
def nonCjkWordCount (text : String) : Nat :=
  ((splitRuns isWsChar text.data).filter (fun w => !w.isEmpty && !w.any isCjk)).length

/-- Definition following the spec's words: `⌈(CJK count) × 1.5 + (non-CJK word count)⌉`. -/
def specTokenEstimate (text : String) : Nat :=
  (jsCeil ((cjkCount text : ℚ) * 1.5 + (nonCjkWordCount text : ℚ))).toNat

def c5Mem : Memory :=
  { id := "m5"
    content := "禁止: evalFoo"
    category := .constraint
    timestamp := 0
    tags := []
    importance := .critical
    relatedFiles := none
    confidence := none }

def c5Issue : ValidationIssue :=
  ValidationIssue.mk .error "使用了禁止的内容: evalFoo" none none
    (some "m5") (some "禁止: evalFoo")

def c5HighMem : Memory :=
  { id := "h1"
    content := "禁止: evalFoo"
    category := .constraint
    timestamp := 0
    tags := []
    importance := .high
    relatedFiles := none
    confidence := none }

def c5HighArch : Memory :=
  { id := "a1"
    content := "forbidden: evalFoo"
    category := .architecture
    timestamp := 0
    tags := []
    importance := .high
    relatedFiles := none
    confidence := none }

def c5HighCorpus : List Memory := [c5HighMem, c5HighArch]

/-! ## Facts about the stable sort model -/

theorem jsCeil_eq_ceil (q : ℚ) : jsCeil q = Int.ceil q := by
  rw [jsCeil, Rat.floor_def', ← Rat.floor_def, Int.floor_neg, neg_neg]

/-- Stability of the insertion-sort model: filtering the sorted list by any
predicate that only keeps mutually tied elements returns exactly the same
subsequence as filtering the input, i.e. tied elements keep their input order. -/
theorem filter_insertionSort {α : Type} (r : α → α → Prop) [DecidableRel r] (p : α → Bool)
    (hp : ∀ a b, p a = true → p b = true → r a b) (l : List α) :
    (l.insertionSort r).filter p = l.filter p := by
  have hpair : (l.filter p).Pairwise r :=
    List.pairwise_of_forall_mem_list fun a ha b hb =>
      hp a b (List.mem_filter.mp ha).2 (List.mem_filter.mp hb).2
  have hsub : (l.filter p).Sublist (l.insertionSort r) :=
    List.sublist_insertionSort hpair (List.filter_sublist l)
  have hsub2 : (l.filter p).Sublist ((l.insertionSort r).filter p) := by
    have h1 := List.Sublist.filter p hsub
    rwa [List.filter_eq_self.mpr (fun a ha => (List.mem_filter.mp ha).2)] at h1
  have hlen : ((l.insertionSort r).filter p).length = (l.filter p).length :=
    ((List.perm_insertionSort r l).filter p).length_eq
  exact (hsub2.eq_of_length hlen.symm).symm

/-- Every element of the sorted relevance list carries the score that
`calculateRelevance` assigns to its memory. -/
theorem score_eq_of_mem_sorted {memories : List Memory} {features : CodeFeatures}
    {mr : MemoryRelevance} (h : mr ∈ sortedRelevances memories features) :
    mr.score = calculateRelevance mr.memory features := by
  rw [sortedRelevances, sortByScoreDesc, List.mem_insertionSort] at h
  obtain ⟨m, _, rfl⟩ := List.mem_map.mp h
  rfl

theorem criticalRelevances_length (memories : List Memory) (features : CodeFeatures) :
    (criticalRelevances memories features).length =
      (memories.filter (fun m => decide (m.importance = ImportanceLevel.critical))).length := by
  rw [criticalRelevances, sortedRelevances, sortByScoreDesc]
  rw [((List.perm_insertionSort relDesc _).filter _).length_eq]
  rw [memoryRelevancesOf, List.filter_map, List.length_map]
  rfl

/-! ## Claim C2 -/

/-- Claim C2 (confirmed): for every corpus and every feature input (including
`none`, the no-file-path case), every record of critical importance appears in
the Selector's output, regardless of its relevance score. -/
theorem c2_critical_inclusion (memories : List Memory) (features? : Option CodeFeatures)
    (m : Memory) (hm : m ∈ memories) (hc : m.importance = ImportanceLevel.critical) :
    m ∈ getRelevantMemoriesForFile memories features? := by
  cases features? with
  | none =>
    exact List.mem_filter.mpr ⟨hm, by simp [hc]⟩
  | some features =>
    apply List.mem_append_left
    refine List.mem_map.mpr ⟨MemoryRelevance.mk m (calculateRelevance m features), ?_, rfl⟩
    refine List.mem_filter.mpr ⟨?_, by simp [hc]⟩
    rw [sortedRelevances, sortByScoreDesc, List.mem_insertionSort]
    exact List.mem_map_of_mem _ hm

theorem c2_witness :
    c2WitnessMemory ∈ [c2WitnessMemory] ∧
      c2WitnessMemory.importance = ImportanceLevel.critical ∧
      c2WitnessMemory ∈ getRelevantMemoriesForFile [c2WitnessMemory] none :=
  ⟨by decide, by decide,
    c2_critical_inclusion [c2WitnessMemory] none c2WitnessMemory (by decide) (by decide)⟩

/-! ## Claim C1 -/

theorem compressLoop_length_le (budget : Nat) :
    ∀ (l : List Memory) (tc kept : Nat),
      (compressLoop budget l tc kept).length ≤ greedyFitCount budget l tc + 1
  | [], _, _ => by simp [compressLoop, greedyFitCount]
  | m :: rest, tc, kept => by
    rw [compressLoop, greedyFitCount]
    split
    · simpa using compressLoop_length_le budget rest _ (kept + 1)
    · split <;> simp

/-- Claim C1 (amended): the Compressor's output never exceeds the greedy fit
count plus one: at most one record — the first one that overflows the budget,
and only when it is critical and fewer than 20 records were already kept — is
force-appended in aggressively compressed form, after which compression stops,
dropping every remaining record (critical ones included). -/
theorem c1_compressor_drops (memories : List Memory) (maxTokens : Nat) :
    (compressMemories memories maxTokens).length ≤
      greedyFitCount maxTokens (sortByImportance memories) 0 + 1 :=
  compressLoop_length_le maxTokens _ 0 0

set_option maxRecDepth 100000 in
/-- Claim C1 counterexample: 15 critical records of 300 estimated tokens each,
compressed under a budget of 500, do NOT all appear: the compressor keeps the
first record, force-appends the second aggressively compressed, and drops the
remaining 13 critical records, so only 2 records reach the [CRITICAL] section. -/
theorem c1_counterexample :
    c1Records.length = 15 ∧
    c1Records.all (fun m =>
      decide (m.importance = ImportanceLevel.critical) &&
      decide (estimateTokens m.content = 300)) = true ∧
    (compressMemories c1Records 500).length = 2 ∧
    (critEmitted (compressMemories c1Records 500)).length = 2 := by
  refine ⟨by decide, by decide, by decide, by decide⟩

/-! ## Claim C3 -/

theorem getRelevantMemoriesForFile_some (memories : List Memory) (features : CodeFeatures) :
    getRelevantMemoriesForFile memories (some features) =
      (criticalRelevances memories features).map (fun mr => mr.memory) ++
        (jsSliceTo (otherRelevances memories features)
          (20 - ((((criticalRelevances memories features).map
            (fun mr => mr.memory)).length : Int)))).map (fun mr => mr.memory) := rfl

theorem length_getRelevantMemoriesForFile_some (memories : List Memory)
    (features : CodeFeatures) :
    (getRelevantMemoriesForFile memories (some features)).length =
      (criticalRelevances memories features).length +
        (jsSliceTo (otherRelevances memories features)
          (20 - (((criticalRelevances memories features).length : Int)))).length := by
  rw [getRelevantMemoriesForFile_some]
  simp only [List.length_append, List.length_map]

theorem length_jsSliceTo_le {α : Type} (l : List α) (e : Int) (he : 0 ≤ e) :
    (jsSliceTo l e).length ≤ e.toNat := by
  rw [jsSliceTo, if_pos he]
  exact List.length_take_le _ _

theorem jsSliceTo_sublist {α : Type} (l : List α) (e : Int) :
    (jsSliceTo l e).Sublist l := by
  rw [jsSliceTo]
  split <;> exact List.take_sublist _ _

set_option maxRecDepth 100000 in
/-- Claim C3 counterexample: a corpus of 21 critical records makes the
Selector return 21 records — every critical record is included, so the
20-record cap does not hold unconditionally. -/
theorem c3_counterexample :
    c3Overflow.length = 21 ∧
    (getRelevantMemoriesForFile c3Overflow (some c3Features)).length = 21 := by
  refine ⟨by decide, by decide⟩

set_option maxRecDepth 1000000 in
set_option maxHeartbeats 1000000 in
/-- Claim C3 (amended): provided the corpus holds at most 20 critical records,
the Selector's output has at most 20 records; non-critical records are included
only when their score exceeds 10; the non-critical candidates are ranked in
descending score order; and in the spec's example scenario (25 high-importance
records, 5 of which match by tag) the output is exactly the 5 tag-matching
records — zero-signal records fall below the threshold and are not emitted at
all, so no zero-signal record ever precedes a tag match. -/
theorem c3_cap_and_threshold (memories : List Memory) (features : CodeFeatures)
    (h : (memories.filter (fun m =>
      decide (m.importance = ImportanceLevel.critical))).length ≤ 20) :
    (getRelevantMemoriesForFile memories (some features)).length ≤ 20 ∧
    (∀ m ∈ getRelevantMemoriesForFile memories (some features),
      m.importance ≠ ImportanceLevel.critical → 10 < calculateRelevance m features) ∧
    List.Sorted relDesc (otherRelevances memories features) ∧
    getRelevantMemoriesForFile c3ExampleCorpus (some c3Features) =
      (List.range 5).map c3TagMem := by
  have hcrit : ((criticalRelevances memories features).map
      (fun mr => mr.memory)).length =
      (memories.filter (fun m =>
        decide (m.importance = ImportanceLevel.critical))).length := by
    rw [List.length_map, criticalRelevances_length]
  refine ⟨?_, ?_, ?_, by decide⟩
  · rw [length_getRelevantMemoriesForFile_some]
    have hk : (criticalRelevances memories features).length ≤ 20 := by
      rw [criticalRelevances_length]
      exact h
    have h20 : (0:Int) ≤ 20 - (((criticalRelevances memories features).length : Int)) := by
      omega
    have hs := length_jsSliceTo_le (otherRelevances memories features) _ h20
    omega
  · intro m hm hnc
    rw [getRelevantMemoriesForFile_some] at hm
    rcases List.mem_append.mp hm with hl | hr
    · obtain ⟨mr, hmr, rfl⟩ := List.mem_map.mp hl
      have := (List.mem_filter.mp hmr).2
      simp only [decide_eq_true_eq] at this
      exact absurd this hnc
    · obtain ⟨mr, hmr, rfl⟩ := List.mem_map.mp hr
      have hmem : mr ∈ otherRelevances memories features :=
        (jsSliceTo_sublist _ _).subset hmr
      have h2 := (List.mem_filter.mp hmem).2
      simp only [decide_eq_true_eq] at h2
      have hscore : mr.score = calculateRelevance mr.memory features :=
        score_eq_of_mem_sorted ((List.filter_sublist _).subset hmem)
      rw [← hscore]
      exact h2.2
  · exact (List.sorted_insertionSort relDesc _).filter _

theorem c3_witness :
    ((([c3WitnessMemory].filter (fun m =>
        decide (m.importance = ImportanceLevel.critical))).length ≤ 20) ∧
      (getRelevantMemoriesForFile [c3WitnessMemory] (some c3Features)).length ≤ 20) := by
  have h : ([c3WitnessMemory].filter (fun m =>
      decide (m.importance = ImportanceLevel.critical))).length ≤ 20 := by decide
  exact ⟨h, (c3_cap_and_threshold [c3WitnessMemory] c3Features h).1⟩

/-! ## Claim C4 -/

set_option maxRecDepth 100000 in
/-- Claim C4 counterexample: two critical records where the second one scores
higher (its tag matches the file name) are emitted as [b, a] — descending score
order — and not in their original corpus order [a, b]. -/
theorem c4_counterexample :
    getRelevantMemoriesForFile [c4MemA, c4MemB] (some c3Features) = [c4MemB, c4MemA] ∧
      c4MemA ≠ c4MemB := by
  refine ⟨by decide, by decide⟩

/-- Claim C4 (amended): the Selector's sort is stable — for every score value
the records carrying that score appear in their original corpus order (filtering
the sorted relevance list by a fixed score yields exactly the filtered input
list) — but critical records are emitted in descending score order (ties in
corpus order), not unconditionally in corpus order. -/
theorem c4_stability (memories : List Memory) (features : CodeFeatures) (v : ℚ) :
    (sortedRelevances memories features).filter (fun mr => decide (mr.score = v)) =
      (memoryRelevancesOf memories features).filter (fun mr => decide (mr.score = v)) ∧
    List.Sorted relDesc (criticalRelevances memories features) := by
  constructor
  · rw [sortedRelevances, sortByScoreDesc]
    exact filter_insertionSort relDesc _ (fun a b ha hb => by
      simp only [decide_eq_true_eq] at ha hb
      simp [relDesc, ha, hb]) _
  · exact (List.sorted_insertionSort relDesc _).filter _

/-! ## Claim C6 -/

theorem detectAux_length (lp : List CodePattern) (key : String) :
    (lp.bind (fun p =>
      if 5 ≤ p.frequency then
        if calculateSimilarity key (generatePatternKey p.pattern) < 0.3 then
          [PatternIssue.mk (inconsistencyMessage p) 1]
        else []
      else [])).length =
    (lp.filter (fun p => decide (5 ≤ p.frequency) &&
      decide (calculateSimilarity key (generatePatternKey p.pattern) < 0.3))).length := by
  induction lp with
  | nil => rfl
  | cons p t ih =>
    by_cases h1 : 5 ≤ p.frequency <;>
      by_cases h2 : calculateSimilarity key (generatePatternKey p.pattern) < 0.3 <;>
      simp [List.cons_bind, h1, h2, ih]

/-- Claim C6 (amended): the similarity of two signatures equals the spec formula
`1 − levenshteinDistance / max(length)`; but an info-level inconsistency issue
is emitted once for EACH common pattern (frequency ≥ 5) whose similarity to the
snippet is below 0.3 — the check is per-pattern, not a test of the best match. -/
theorem c6_similarity_per_pattern (str1 str2 : String) (patterns : List CodePattern)
    (code filePath language : String) :
    calculateSimilarity str1 str2 = specSimilarity str1 str2 ∧
    (detectPatternInconsistencies patterns code filePath language).length =
      ((patterns.filter (fun p => p.language == language)).filter (fun p =>
        decide (5 ≤ p.frequency) &&
        decide (calculateSimilarity (generatePatternKey (normalizeCode code))
          (generatePatternKey p.pattern) < 0.3))).length := by
  constructor
  · rw [calculateSimilarity, specSimilarity]
    by_cases hgt : str1.length > str2.length
    · have hm : max str1.length str2.length = str1.length :=
        Nat.max_eq_left (le_of_lt hgt)
      simp only [if_pos hgt, hm]
      split_ifs with h0
      · rfl
      · have hne : ((str1.length : ℚ)) ≠ 0 := Nat.cast_ne_zero.mpr h0
        field_simp
    · have hm : max str1.length str2.length = str2.length :=
        Nat.max_eq_right (le_of_not_lt hgt)
      simp only [if_neg hgt, hm]
      split_ifs with h0
      · rfl
      · have hne : ((str2.length : ℚ)) ≠ 0 := Nat.cast_ne_zero.mpr h0
        field_simp
  · rw [detectPatternInconsistencies]
    by_cases he : (patterns.filter (fun p => p.language == language)).isEmpty
    · rw [if_pos he]
      rw [List.isEmpty_iff] at he
      rw [he]
      rfl
    · rw [if_neg he]
      exact detectAux_length _ _

set_option maxRecDepth 100000 in
/-- Claim C6 counterexample: with two common patterns, one identical to the
snippet (similarity 1 ≥ 0.3, the best match) and one dissimilar (similarity 0),
a diagnostic is still emitted — refuting "no diagnostic when the best match is
at or above 0.3". -/
theorem c6_counterexample :
    (0.3 : ℚ) ≤ calculateSimilarity (generatePatternKey (normalizeCode "abc"))
      (generatePatternKey c6PatternNear.pattern) ∧
    detectPatternInconsistencies [c6PatternNear, c6PatternFar] "abc" "f.go" "go" =
      [PatternIssue.mk (inconsistencyMessage c6PatternFar) 1] := by
  refine ⟨by decide, by decide⟩

/-! ## Claim C7 -/

/-- Claim C7 counterexample: on the string "123" the estimator returns 0 — the
word "123" is a non-CJK word, but it contains no ASCII letter, so the code does
not count it, while the spec formula counts it and yields 1. -/
theorem c7_counterexample :
    estimateTokens (String.mk ['1', '2', '3']) = 0 ∧
      specTokenEstimate (String.mk ['1', '2', '3']) = 1 := by
  refine ⟨by decide, by decide⟩

theorem ceil_three_halves (c : Nat) : Nat.ceil ((c : ℚ) * 1.5) = (3 * c + 1) / 2 := by
  rcases Nat.even_or_odd c with ⟨k, hk⟩ | ⟨k, hk⟩
  · subst hk
    have h : ((k + k : ℕ) : ℚ) * 1.5 = ((3 * k : ℕ) : ℚ) := by push_cast; ring
    rw [h, Nat.ceil_natCast]
    omega
  · subst hk
    have h : ((2 * k + 1 : ℕ) : ℚ) * 1.5 = 1.5 + ((3 * k : ℕ) : ℚ) := by push_cast; ring
    have h15 : Nat.ceil ((1.5 : ℚ)) = 2 := by
      rw [Nat.ceil_eq_iff (by norm_num)]
      norm_num
    rw [h, Nat.ceil_add_nat (by norm_num), h15]
    omega

/-- Claim C7 (amended): the token estimator returns the ceiling of 1.5 times
the CJK character count plus the number of whitespace-delimited words that
contain at least one ASCII letter (purely numeric or symbolic words count 0). -/
theorem c7_estimator_formula (text : String) :
    estimateTokens text = (3 * cjkCount text + 1) / 2 + englishWordCount text := by
  rw [estimateTokens, jsCeil_eq_ceil, Int.ceil_toNat,
    Nat.ceil_add_nat (by positivity), ceil_three_halves]

/-! ## Claim C9 -/

/-- Claim C9 (confirmed): the three sections of the formatted bundle print the
contents of at most 10 records in total, and a low-importance record is never
printed. -/
theorem c9_bundle_bound (memories : List Memory) (maxTokens : Nat) :
    (critEmitted (compressMemories memories maxTokens)).length +
      (highEmitted (compressMemories memories maxTokens)).length +
      (mediumEmitted (compressMemories memories maxTokens)).length ≤ 10 ∧
    (∀ m, (m ∈ critEmitted (compressMemories memories maxTokens) ∨
           m ∈ highEmitted (compressMemories memories maxTokens) ∨
           m ∈ mediumEmitted (compressMemories memories maxTokens)) →
      m.importance ≠ ImportanceLevel.low) := by
  constructor
  · have t1 := List.length_take_le 10 (criticalOf (compressMemories memories maxTokens))
    have t2 := List.length_take_le
      (10 - (criticalOf (compressMemories memories maxTokens)).length)
      (highOf (compressMemories memories maxTokens))
    have t3 := List.length_take_le
      (10 - (criticalOf (compressMemories memories maxTokens)).length -
        (highOf (compressMemories memories maxTokens)).length)
      (mediumOf (compressMemories memories maxTokens))
    have u1 := (List.take_sublist 10
      (criticalOf (compressMemories memories maxTokens))).length_le
    have u2 := (List.take_sublist
      (10 - (criticalOf (compressMemories memories maxTokens)).length)
      (highOf (compressMemories memories maxTokens))).length_le
    have u3 := (List.take_sublist
      (10 - (criticalOf (compressMemories memories maxTokens)).length -
        (highOf (compressMemories memories maxTokens)).length)
      (mediumOf (compressMemories memories maxTokens))).length_le
    unfold critEmitted highEmitted mediumEmitted
    split_ifs <;> (try simp only [List.length_nil]) <;> omega
  · intro m hm
    rcases hm with hm | hm | hm
    · have hm' : m ∈ criticalOf (compressMemories memories maxTokens) :=
        (List.take_sublist _ _).subset hm
      have := (List.mem_filter.mp hm').2
      simp only [decide_eq_true_eq] at this
      simp [this]
    · rw [highEmitted] at hm
      split at hm
      · have hm' : m ∈ highOf (compressMemories memories maxTokens) :=
          (List.take_sublist _ _).subset hm
        have := (List.mem_filter.mp hm').2
        simp only [decide_eq_true_eq] at this
        simp [this]
      · simp at hm
    · rw [mediumEmitted] at hm
      split at hm
      · have hm' : m ∈ mediumOf (compressMemories memories maxTokens) :=
          (List.take_sublist _ _).subset hm
        have := (List.mem_filter.mp hm').2
        simp only [decide_eq_true_eq] at this
        simp [this]
      · simp at hm

/-! ## Claim C10 -/

/-- Claim C10 (confirmed): an empty selection formats to the empty string — in
particular the output carries neither the header marker nor the footer marker,
so nothing is injected and a later injection is not mistaken for a duplicate. -/
theorem c10_empty_selection (maxTokens : Nat) :
    formatMemoriesAsContext [] maxTokens = "" ∧
    strIncludes (formatMemoriesAsContext [] maxTokens) headerMarker = false ∧
    strIncludes (formatMemoriesAsContext [] maxTokens) footerMarker = false := by
  have h : formatMemoriesAsContext [] maxTokens = "" := by
    simp [formatMemoriesAsContext]
  refine ⟨h, ?_, ?_⟩ <;> rw [h] <;> decide

/-! ## Facts about the validator (`codeValidator.ts`, `architectureChecker.ts`) -/

/-- With an unchanged stored corpus, `checkArchitecture` computes the same
result whatever the construction and call times: a refresh reloads the same
filtered memories the constructor loaded. -/
theorem checkArchitecture_corpus_const (memories : List Memory) (t0 t1 : Nat)
    (ws : Option String) (code fp lang : String) :
    (checkArchitecture (mkArchChecker memories t0) memories t1 ws code fp lang).1 =
      computeArchResult (filterArchMemories memories) ws code fp lang := by
  rw [checkArchitecture]
  split <;> rfl

/-- Claim C8 (confirmed): validating the same code, path and language over the
same memory corpus twice yields the same result — same diagnostics in the same
order, same passed flag and summary — regardless of when each validator was
constructed and called. Each call builds a fresh `CodeValidator` over the
corpus, as `extension.ts` and `memoryManager.ts` do; the architecture
checker's 10-second refresh merely reloads the same corpus. -/
theorem c8_determinism (memories : List Memory) (workspacePath : Option String)
    (code filePath language : String) (t0 t1 u0 u1 : Nat) :
    (validateCode memories (some (mkArchChecker memories t0)) memories t1 workspacePath
      code filePath language).1 =
    (validateCode memories (some (mkArchChecker memories u0)) memories u1 workspacePath
      code filePath language).1 := by
  simp only [validateCode, checkArchitecture_corpus_const]

/-- Claim C5 (amended): forbidden-constraint diagnostics only ever arise from
critical records. Every issue `validateConstraints` produces stems from a
critical constraint record — an error exactly reports a forbidden item found
in the code and a warning exactly reports a required item missing from it —
and every issue of the architecture checker's constraint pass stems from a
critical record. High-importance records are skipped entirely by both, so a
violated forbidden constraint from a high record yields no warning at all
(see the counterexample), contrary to the claimed severity mapping. -/
theorem c5_severity (memories : List Memory) (code : String) :
    (∀ i ∈ validateConstraints memories code,
      i.type ≠ IssueType.info ∧
      ∃ m ∈ memories, m.category = MemoryCategory.constraint ∧
        m.importance = ImportanceLevel.critical ∧
        i.memoryId = some m.id ∧
        (i.type = IssueType.error →
          ∃ item ∈ extractForbiddenItems m.content,
            strIncludes code item = true ∧ i.message = "使用了禁止的内容: " ++ item) ∧
        (i.type = IssueType.warning →
          ∃ item ∈ extractRequiredItems m.content,
            strIncludes code item = false ∧ i.message = "建议使用: " ++ item)) ∧
    (∀ i ∈ archConstraintIssues memories code,
      ∃ m ∈ memories, m.importance = ImportanceLevel.critical ∧ i.memoryId = some m.id) := by
  constructor
  · intro i hi
    rw [validateConstraints, List.mem_bind] at hi
    obtain ⟨m, hm, hi⟩ := hi
    rw [List.mem_filter] at hm
    obtain ⟨hmem, hcond⟩ := hm
    have hcond' := of_decide_eq_true hcond
    dsimp only at hi
    rcases List.mem_append.mp hi with h | h
    · split at h
      · rw [List.mem_bind] at h
        obtain ⟨item, hitem, h⟩ := h
        split_ifs at h with hinc
        · rw [List.mem_singleton] at h
          subst h
          refine ⟨by simp, m, hmem, hcond'.1, hcond'.2, rfl, ?_, ?_⟩
          · intro _
            exact ⟨item, hitem, hinc, rfl⟩
          · intro hw
            exact absurd hw (by simp)
        · exact absurd h (List.not_mem_nil i)
      · exact absurd h (List.not_mem_nil i)
    · split at h
      · rw [List.mem_bind] at h
        obtain ⟨item, hitem, h⟩ := h
        split_ifs at h with hinc
        · rw [List.mem_singleton] at h
          subst h
          refine ⟨by simp, m, hmem, hcond'.1, hcond'.2, rfl, ?_, ?_⟩
          · intro hw
            exact absurd hw (by simp)
          · intro _
            refine ⟨item, hitem, ?_, rfl⟩
            simpa using hinc
        · exact absurd h (List.not_mem_nil i)
      · exact absurd h (List.not_mem_nil i)
  · intro i hi
    rw [archConstraintIssues, List.mem_bind] at hi
    obtain ⟨m, hmem, hi⟩ := hi
    dsimp only at hi
    split at hi
    · exact absurd hi (List.not_mem_nil i)
    · rename_i hcrit
      have hcrit' : m.importance = ImportanceLevel.critical := not_not.mp hcrit
      refine ⟨m, hmem, hcrit', ?_⟩
      rcases List.mem_append.mp hi with h | h <;>
        [skip; skip] <;>
        · split at h
          · rw [List.mem_bind] at h
            obtain ⟨pat, _, h⟩ := h
            split_ifs at h
            · rw [List.mem_singleton] at h
              subst h
              rfl
            · exact absurd h (List.not_mem_nil i)
          · exact absurd h (List.not_mem_nil i)

theorem c5_witness :
    c5Issue ∈ validateConstraints [c5Mem] "call evalFoo()" ∧
      c5Issue.type ≠ IssueType.info :=
  ⟨by decide, ((c5_severity [c5Mem] "call evalFoo()").1 c5Issue (by decide)).1⟩

set_option maxRecDepth 100000 in
/-- Claim C5 counterexample: a high-importance constraint record forbidding
`evalFoo`, and code that contains `evalFoo` verbatim — the extracted forbidden
item is found in the code, yet the whole validation (all five stages plus the
architecture checker) produces no diagnostic at all, where the claim demands
a warning. -/
theorem c5_counterexample :
    extractForbiddenItems c5HighMem.content = ["evalFoo"] ∧
    strIncludes "call evalFoo()" "evalFoo" = true ∧
    c5HighMem.importance = ImportanceLevel.high ∧
    (validateCode c5HighCorpus (some (mkArchChecker c5HighCorpus 0)) c5HighCorpus 0 none
      "call evalFoo()" "src/x.ts" "unknown").1.issues = [] := by
  refine ⟨by decide, by decide, by decide, by decide⟩

end CodeMind

